import Mathlib

set_option maxRecDepth 8000

/-!
Verification of the authoritative simulation core of the Naval War game
(`SinglePlayerServer` and its helpers, together with the shared constant
tables in `src/shared/types.ts`).

The TypeScript code is shallowly embedded:
* JavaScript numbers that hold coordinates, velocities or lifetimes are
  modelled as rationals (`ℚ`); quantities that are only ever integers in
  the program (health, damage, xp, score, levels, upgrade points,
  millisecond timestamps) are modelled as `Int`.
* `Math.sqrt` is modelled by `sqrtQ`, a rational square root that is exact
  whenever the radicand's numerator and denominator are perfect squares;
  theorems that depend on exactness of a square root carry that exactness
  as an explicit hypothesis, and every concrete witness instantiates them
  at inputs on which `sqrtQ` is exact.
* `Math.round` is modelled by `jsRound` (`⌊x + 1/2⌋`, the JavaScript
  rounding rule).
* Mutation of the `players`/`neutrals`/`drones` collections (which in the
  source happens through shared object references) is modelled by
  state-passing: each loop threads a `ServerState` and rewrites the entry
  with the matching id, which reproduces the reference semantics because
  every entity is identified by its unique id.
* `this.emit(...)` appends a `GameEvent` to an event log carried in the
  state; `localStorage` is modelled by two storage slots in the state.
-/

namespace NavalWar

/-- Fuel-bounded integer Newton iteration for the square root (the fuel
only bounds the iteration count; the loop exits as soon as the guess
stops decreasing, which happens at `⌊√n⌋`). -/
def isqrtAux (n : Nat) : Nat → Nat → Nat
  | guess, 0 => guess
  | guess, fuel + 1 =>
    let next := (guess + n / guess) / 2
    if next < guess then isqrtAux n next fuel else guess

/-- Integer square root (`⌊√n⌋`) by Newton iteration. -/
def isqrt (n : Nat) : Nat :=
  if n = 0 then 0 else isqrtAux n n n

/-- JavaScript `Math.sqrt` modelled on `ℚ`: exact on rationals whose
reduced numerator and denominator are perfect squares (all concrete
inputs used in this development), an approximation elsewhere; theorems
needing exactness state it as a hypothesis. -/
def sqrtQ (q : ℚ) : ℚ := (isqrt q.num.toNat : ℚ) / (isqrt q.den : ℚ)

/-- JavaScript `Math.round`: round half towards positive infinity. -/
def jsRound (q : ℚ) : Int := ⌊q + 1/2⌋

/-- The ascending cell indices visited by `for (let c = lo; c <= hi; c++)`:
`n` loop iterations starting at `lo`. -/
def intRangeFrom (lo : Int) : Nat → List Int
  | 0 => []
  | n + 1 => lo :: intRangeFrom (lo + 1) n

/-- The inclusive integer range `[lo, hi]`, used to model
`for (let c = lo; c <= hi; c++)`. -/
def intRangeIncl (lo hi : Int) : List Int :=
  intRangeFrom lo (hi + 1 - lo).toNat

/-- `Set<string>.add`, modelled on lists: append the element if absent. -/
def addSet (l : List String) (x : String) : List String :=
  if x ∈ l then l else l ++ [x]

/-! ## Shared types (`src/shared/types.ts`) -/

inductive ShipClass
  | patrol_boat | destroyer | cruiser | battleship | submarine | carrier
deriving DecidableEq, Repr

/-- `PlayerStats` (the upgradeable stat block). -/
structure PlayerStats where
  healthBonus : Int
  speedBonus : Int
  damageBonus : Int
  reloadBonus : Int
deriving DecidableEq, Repr

def DEFAULT_STATS : PlayerStats := ⟨0, 0, 0, 0⟩

def MAX_STAT_POINTS : Int := 7

/-- A named stat, i.e. a value of `keyof PlayerStats`. -/
inductive StatKey
  | healthBonus | speedBonus | damageBonus | reloadBonus
deriving DecidableEq, Repr

def PlayerStats.get (st : PlayerStats) : StatKey → Int
  | .healthBonus => st.healthBonus
  | .speedBonus => st.speedBonus
  | .damageBonus => st.damageBonus
  | .reloadBonus => st.reloadBonus

def PlayerStats.set (st : PlayerStats) : StatKey → Int → PlayerStats
  | .healthBonus, v => { st with healthBonus := v }
  | .speedBonus, v => { st with speedBonus := v }
  | .damageBonus, v => { st with damageBonus := v }
  | .reloadBonus, v => { st with reloadBonus := v }

inductive BulletType
  | cannon | machinegun | torpedo
deriving DecidableEq, Repr

def BulletType.str : BulletType → String
  | .cannon => "cannon" | .machinegun => "machinegun" | .torpedo => "torpedo"

structure Ship where
  id : String
  x : ℚ
  y : ℚ
  rotation : ℚ
  velocityX : ℚ
  velocityY : ℚ
  health : Int
  maxHealth : Int
  level : Int
  xp : Int
  shipClass : ShipClass
  kills : Int
  score : Int
  stats : PlayerStats
  abilityActive : Bool
  abilityCooldown : Int
  isStealthed : Bool
  isShielded : Bool
deriving DecidableEq, Repr

structure Bullet where
  id : String
  ownerId : String
  x : ℚ
  y : ℚ
  velocityX : ℚ
  velocityY : ℚ
  damage : Int
  lifetime : ℚ
  type : BulletType
  ignoreTerrain : Bool
deriving DecidableEq, Repr

inductive NeutralType
  | buoy | cargo | lighthouse | tank
deriving DecidableEq, Repr

def NeutralType.str : NeutralType → String
  | .buoy => "buoy" | .cargo => "cargo" | .lighthouse => "lighthouse" | .tank => "tank"

structure NeutralObject where
  id : String
  x : ℚ
  y : ℚ
  type : NeutralType
  health : Int
  maxHealth : Int
  xpValue : Int
  rotation : Option ℚ
  velocityX : Option ℚ
  velocityY : Option ℚ
  lastFireTime : Option Int
deriving DecidableEq, Repr

structure Drone where
  id : String
  ownerId : String
  x : ℚ
  y : ℚ
  rotation : ℚ
  health : Int
  lifetime : ℚ
  targetId : Option String
deriving DecidableEq, Repr

inductive IslandShape
  | circle | irregular
deriving DecidableEq, Repr

structure Island where
  id : String
  x : ℚ
  y : ℚ
  radius : ℚ
  shape : IslandShape
  points : Option (List (ℚ × ℚ))
  seed : Option Int
deriving DecidableEq, Repr

structure LeaderboardEntry where
  id : String
  name : String
  score : Int
  kills : Int
  level : Int
  shipClass : ShipClass
deriving DecidableEq, Repr

structure GameState where
  timestamp : Int
  ships : List Ship
  bullets : List Bullet
  neutrals : List NeutralObject
  islands : List Island
  leaderboard : List LeaderboardEntry
  drones : List Drone
deriving DecidableEq, Repr

/-- `PlayerInput`; `x`/`y` are optional because `updatePlayers` checks them
against `undefined`. -/
structure PlayerInput where
  x : Option ℚ
  y : Option ℚ
  rotation : ℚ
  thrust : Bool
  fire : Bool
  useAbility : Bool
deriving DecidableEq, Repr

/-! ## Constant tables (`src/shared/types.ts`) -/

structure ShipBaseStats where
  maxHealth : Int
  speed : ℚ
  turnRate : ℚ
  fireRate : Int
  damage : Int
deriving DecidableEq, Repr

def SHIP_STATS : ShipClass → ShipBaseStats
  | .patrol_boat => ⟨100, 300, 0.05, 400, 12⟩
  | .destroyer => ⟨90, 380, 0.065, 250, 10⟩
  | .cruiser => ⟨180, 220, 0.035, 500, 15⟩
  | .battleship => ⟨160, 160, 0.025, 800, 35⟩
  | .submarine => ⟨80, 280, 0.045, 1500, 55⟩
  | .carrier => ⟨140, 200, 0.03, 600, 8⟩

def SHIP_UPGRADE_PATHS : ShipClass → List ShipClass
  | .patrol_boat => [.destroyer, .cruiser, .battleship, .submarine, .carrier]
  | _ => []

def SHIP_UNLOCK_LEVELS : ShipClass → Int
  | .patrol_boat => 1
  | .destroyer => 2
  | .cruiser => 4
  | .battleship => 5
  | .submarine => 6
  | .carrier => 7

/-- `XP_PER_LEVEL` (cumulative XP thresholds). -/
def XP_PER_LEVEL : List Int := [0, 50, 150, 300, 500, 800, 1200, 1700, 2400, 3500]

def MAX_LEVEL : Int := 10

/-! ## Server constants (top of the `SinglePlayerServer` module) -/

def WORLD_WIDTH : ℚ := 3000
def WORLD_HEIGHT : ℚ := 3000
def MAX_NEUTRALS : Nat := 50
def CARGO_SPEED : ℚ := 60
def DRONE_SPEED : ℚ := 280
def DRONE_DAMAGE : Int := 5
def DRONE_RANGE : ℚ := 200
def DRONE_LIFETIME : ℚ := 5000
def SHIP_RADIUS : ℚ := 25
def BULLET_RADIUS : ℚ := 6
def DRONE_RADIUS : ℚ := 12
def LIGHTHOUSE_RANGE : ℚ := 500
def LIGHTHOUSE_DAMAGE : Int := 15
def LIGHTHOUSE_FIRE_RATE : Int := 2000
def TANK_RANGE : ℚ := 400
def TANK_DAMAGE : Int := 20
def TANK_FIRE_RATE : Int := 1500

def localPlayerId : String := "local-player"

/-! ## Server-side player/session and persistence records -/

structure Player where
  id : String
  name : String
  ship : Ship
  lastInput : PlayerInput
  spawnProtectionUntil : Int
  lastFireTime : Int
  upgradePoints : Int
  isDead : Bool
  deathTime : Int
  abilityActiveUntil : Int
  abilityCooldownUntil : Int
deriving DecidableEq, Repr

/-- A leaderboard `ScoreEntry`; the ISO date string is modelled by the
timestamp it is derived from. -/
structure ScoreEntry where
  name : String
  score : Int
  date : Int
deriving DecidableEq, Repr

structure LeaderboardData where
  lastGame : Option ScoreEntry
  highScores : List ScoreEntry
deriving DecidableEq, Repr

/-- The progression record written by `savePlayerState`. -/
structure SaveData where
  score : Int
  level : Int
  xp : Int
  shipClass : ShipClass
  stats : PlayerStats
  upgradePoints : Int
deriving DecidableEq, Repr

/-- An event published through `this.emit(...)`. -/
inductive GameEvent
  | playerId (id : String)
  | worldInit (islands : List Island)
  | gameState (state : GameState)
  | playerDied (killerId victimId killerName : String)
  | deathTimer (deathTime : Int)
  | levelUp (newLevel : Int) (upgradePoints : Int) (availableShipClasses : List ShipClass)
  | playerStats (stats : PlayerStats) (upgradePoints : Int) (xpToNextLevel : Int)
  | respawned (x y : ℚ)
  | killFeed (killerName victimName weapon : String)
  | damageDealt (x y : ℚ) (damage : Int) (isCritical : Bool)
  | xpGained (x y : ℚ) (amount : Int)
deriving DecidableEq, Repr

/-- The mutable fields of `SinglePlayerServer`, together with the event log
and the two `localStorage` slots it writes. -/
structure ServerState where
  players : List Player
  bullets : List Bullet
  neutrals : List NeutralObject
  islands : List Island
  drones : List Drone
  lastNeutralSpawn : Int
  droneIdCounter : Nat
  bulletIdCounter : Nat
  neutralIdCounter : Nat
  events : List GameEvent
  storageSave : Option SaveData
  storageLeaderboard : Option LeaderboardData
deriving DecidableEq, Repr

/-! ## SpatialHashGrid -/

/-- `SpatialHashGrid<T>`: `buckets` maps a packed cell key to the bucket's
contents in insertion order (a missing `Map` entry and an empty bucket are
observationally identical, so both are `[]`). -/
structure SpatialHashGrid (T : Type) where
  cellSize : ℚ
  buckets : Nat → List T

/-- The constructor `new SpatialHashGrid(cellSize)`. -/
def SpatialHashGrid.create (T : Type) (cellSize : ℚ) : SpatialHashGrid T :=
  ⟨max 1 cellSize, fun _ => []⟩

/-- `key(cx, cy)`: `(((cx & 0xffff) << 16) | (cy & 0xffff)) >>> 0`.
For every integer `cx`, the JavaScript `cx & 0xffff` (32-bit truncation
then mask) equals `cx mod 2^16`; both halves are below `2^16`, so the
shift-or is exact and the `>>> 0` is the identity. -/
def SpatialHashGrid.key (cx cy : Int) : Nat :=
  (cx % 65536).toNat * 65536 + (cy % 65536).toNat

/-- `insert(x, y, value)`. -/
def SpatialHashGrid.insert {T : Type} (g : SpatialHashGrid T) (x y : ℚ) (value : T) :
    SpatialHashGrid T :=
  let cx := ⌊x / g.cellSize⌋
  let cy := ⌊y / g.cellSize⌋
  let k := SpatialHashGrid.key cx cy
  { g with buckets := fun k' => if k' = k then g.buckets k ++ [value] else g.buckets k' }

/-- `queryInto(x, y, range, out)`: `out` is cleared first, so the result
ignores the incoming `out` and is rebuilt from the cell square. Buckets
are visited with `cy` in the outer loop and `cx` in the inner loop. -/
def SpatialHashGrid.queryInto {T : Type} (g : SpatialHashGrid T) (x y range : ℚ)
    (_out : List T) : List T :=
  let r := max 0 range
  let minCx := ⌊(x - r) / g.cellSize⌋
  let maxCx := ⌊(x + r) / g.cellSize⌋
  let minCy := ⌊(y - r) / g.cellSize⌋
  let maxCy := ⌊(y + r) / g.cellSize⌋
  (intRangeIncl minCy maxCy).flatMap fun cy =>
    (intRangeIncl minCx maxCx).flatMap fun cx =>
      g.buckets (SpatialHashGrid.key cx cy)

/-! ## Geometry primitives -/

/-- `getFirstSegmentCircleHitT(ax, ay, bx, by, cx, cy, r)`. -/
def getFirstSegmentCircleHitT (ax ay bx b_y cx cy r : ℚ) : Option ℚ :=
  let dx := bx - ax
  let dy := b_y - ay
  let a := dx * dx + dy * dy
  if a ≤ 1/1000000000 then none
  else
    let fx := ax - cx
    let fy := ay - cy
    let b := 2 * (fx * dx + fy * dy)
    let c := (fx * fx + fy * fy) - r * r
    let disc := b * b - 4 * a * c
    if disc < 0 then none
    else
      let sqrtDisc := sqrtQ disc
      let inv2a := 1 / (2 * a)
      let t1 := (-b - sqrtDisc) * inv2a
      let t2 := (-b + sqrtDisc) * inv2a
      if 0 ≤ t1 ∧ t1 ≤ 1 then some t1
      else if 0 ≤ t2 ∧ t2 ≤ 1 then some t2
      else none

/-- `isPointInIsland(px, py, island)`. -/
def isPointInIsland (px py : ℚ) (island : Island) : Bool :=
  let dx := px - island.x
  let dy := py - island.y
  dx * dx + dy * dy < island.radius * island.radius

/-- `clampEntityOutsideIslandAlongSegment(prevX, prevY, nextX, nextY,
entityRadius, island)`.  `Math.sqrt(...) || 1` is modelled by replacing a
zero square root with `1`. -/
def clampEntityOutsideIslandAlongSegment (prevX prevY nextX nextY entityRadius : ℚ)
    (island : Island) : ℚ × ℚ :=
  let expanded := island.radius + entityRadius
  let endDx := nextX - island.x
  let endDy := nextY - island.y
  let endDistSq := endDx * endDx + endDy * endDy
  if endDistSq < expanded * expanded then
    let endDist := sqrtQ endDistSq
    let epsilon : ℚ := 1/100
    if 1/1000000 < endDist then
      (island.x + (endDx / endDist) * (expanded + epsilon),
       island.y + (endDy / endDist) * (expanded + epsilon))
    else
      let mvx := nextX - prevX
      let mvy := nextY - prevY
      let mvLen := if sqrtQ (mvx * mvx + mvy * mvy) = 0 then 1 else sqrtQ (mvx * mvx + mvy * mvy)
      (island.x + (mvx / mvLen) * (expanded + epsilon),
       island.y + (mvy / mvLen) * (expanded + epsilon))
  else
    match getFirstSegmentCircleHitT prevX prevY nextX nextY island.x island.y expanded with
    | none => (nextX, nextY)
    | some t =>
      let hitX := prevX + (nextX - prevX) * t
      let hitY := prevY + (nextY - prevY) * t
      let nx := hitX - island.x
      let ny := hitY - island.y
      let len := if sqrtQ (nx * nx + ny * ny) = 0 then 1 else sqrtQ (nx * nx + ny * ny)
      let epsilon : ℚ := 1/100
      (island.x + (nx / len) * (expanded + epsilon),
       island.y + (ny / len) * (expanded + epsilon))

/-- `Phaser.Math.Distance.Between`. -/
def distanceBetween (x1 y1 x2 y2 : ℚ) : ℚ :=
  sqrtQ ((x2 - x1) * (x2 - x1) + (y2 - y1) * (y2 - y1))

/-- The discriminant computed inside `getFirstSegmentCircleHitT` (named so
square-root-exactness hypotheses can refer to it). -/
def segCircleDisc (ax ay bx b_y cx cy r : ℚ) : ℚ :=
  let dx := bx - ax
  let dy := b_y - ay
  let a := dx * dx + dy * dy
  let fx := ax - cx
  let fy := ay - cy
  let b := 2 * (fx * dx + fy * dy)
  let c := (fx * fx + fy * fy) - r * r
  b * b - 4 * a * c

/-- The hit point `clampEntityOutsideIslandAlongSegment` computes in its
swept branch (at the `t` returned by `getFirstSegmentCircleHitT`, or the
segment start when there is no hit). -/
def segCircleHitPoint (ax ay bx b_y cx cy r : ℚ) : ℚ × ℚ :=
  let t := (getFirstSegmentCircleHitT ax ay bx b_y cx cy r).getD 0
  (ax + (bx - ax) * t, ay + (b_y - ay) * t)

/-! ## State helpers (reference-semantics plumbing) -/

/-- `this.players.get(pid)` (the `Map` holds one entry per id). -/
def findPlayer (s : ServerState) (pid : String) : Option Player :=
  s.players.find? (fun p => p.id = pid)

/-- Mutation of the player object with id `pid` through its shared
reference. -/
def modifyPlayer (s : ServerState) (pid : String) (f : Player → Player) : ServerState :=
  { s with players := s.players.map (fun p => if p.id = pid then f p else p) }

def findNeutral (s : ServerState) (nid : String) : Option NeutralObject :=
  s.neutrals.find? (fun n => n.id = nid)

def modifyNeutral (s : ServerState) (nid : String) (f : NeutralObject → NeutralObject) :
    ServerState :=
  { s with neutrals := s.neutrals.map (fun n => if n.id = nid then f n else n) }

def modifyDrone (s : ServerState) (did : String) (f : Drone → Drone) : ServerState :=
  { s with drones := s.drones.map (fun d => if d.id = did then f d else d) }

/-- `this.emit(event)`. -/
def emitEvent (s : ServerState) (e : GameEvent) : ServerState :=
  { s with events := s.events ++ [e] }

/-! ## Progression engine -/

/-- `getXPToNextLevel(level)`; `XP_PER_LEVEL[level] || 9999` falls back to
`9999` both for an out-of-range index and for a stored `0` (JavaScript
falsiness). -/
def getXPToNextLevel (level : Int) : Int :=
  if MAX_LEVEL ≤ level then 999999
  else
    let v := XP_PER_LEVEL.getD level.toNat 0
    if v = 0 then 9999 else v

/-- `sendStats(player)`. -/
def sendStats (s : ServerState) (player : Player) : ServerState :=
  emitEvent s (.playerStats player.ship.stats player.upgradePoints
    (getXPToNextLevel player.ship.level))

/-- `savePlayerState(player)`: writes the progression record for the local
player only. -/
def savePlayerState (s : ServerState) (player : Player) : ServerState :=
  if player.id ≠ localPlayerId then s
  else
    let sd : SaveData :=
      { score := player.ship.score
        level := player.ship.level
        xp := player.ship.xp
        shipClass := player.ship.shipClass
        stats := player.ship.stats
        upgradePoints := player.upgradePoints }
    { s with storageSave := some sd }

/-- `saveGameResult(player)`: append the score to the leaderboard record,
keep the top 10 by score, update the last-game pointer. `Date` is the
current timestamp. -/
def saveGameResult (now : Int) (s : ServerState) (player : Player) : ServerState :=
  let entry : ScoreEntry := ⟨player.name, player.ship.score, now⟩
  let data := s.storageLeaderboard.getD ⟨none, []⟩
  let highScores := (data.highScores ++ [entry]).mergeSort (fun a b => b.score ≤ a.score)
  { s with storageLeaderboard := some ⟨some entry, highScores.take 10⟩ }

/-- The mutations `awardXP(player, amount)` performs on the player object,
together with the events it emits (in order). -/
def awardXPPlayer (player : Player) (amount : Int) : Player × List GameEvent :=
  let ship0 := player.ship
  let ship1 := { ship0 with xp := ship0.xp + amount, score := ship0.score + amount * 10 }
  let xpNeeded := getXPToNextLevel ship1.level
  let (p2, levelUpEvents) :=
    if xpNeeded ≤ ship1.xp ∧ ship1.level < MAX_LEVEL then
      let ship2 := { ship1 with
        level := ship1.level + 1
        xp := ship1.xp - xpNeeded
        health := ship1.maxHealth }
      let p2 := { player with ship := ship2, upgradePoints := player.upgradePoints + 1 }
      let availableShipClasses := (SHIP_UPGRADE_PATHS ship2.shipClass).filter
        (fun sc => SHIP_UNLOCK_LEVELS sc ≤ ship2.level)
      (p2, [GameEvent.levelUp ship2.level p2.upgradePoints availableShipClasses])
    else ({ player with ship := ship1 }, [])
  (p2, levelUpEvents ++ [.playerStats p2.ship.stats p2.upgradePoints
    (getXPToNextLevel p2.ship.level)])

/-- `awardXP(player, amount)` as a state transformer (the player argument
is the map entry with id `pid`). -/
def awardXP (s : ServerState) (pid : String) (amount : Int) : ServerState :=
  match findPlayer s pid with
  | none => s
  | some player =>
    let pe := awardXPPlayer player amount
    let s1 := modifyPlayer s pid (fun _ => pe.1)
    let s2 := { s1 with events := s1.events ++ pe.2 }
    savePlayerState s2 pe.1

/-- The killer-resolution and notification tail of `handlePlayerDeath`
(source lines 945-967), operating on the state `s1` in which the victim
has already been marked dead. -/
def resolveKillerAndNotify (now : Int) (s1 : ServerState) (player : Player)
    (killerId weaponType : String) : ServerState :=
  match findPlayer s1 killerId with
  | some killer =>
    let killer1 := { killer with ship := { killer.ship with
      kills := killer.ship.kills + 1
      score := killer.ship.score + (100 + player.ship.level * 10) } }
    let s2 := modifyPlayer s1 killerId (fun _ => killer1)
    let s3 := awardXP s2 killerId (100 + player.ship.level * 20)
    let killerName := killer.name
    let killerWeapon := match killer.ship.shipClass with
      | .patrol_boat => "patrol_boat" | .destroyer => "destroyer"
      | .cruiser => "cruiser" | .battleship => "battleship"
      | .submarine => "submarine" | .carrier => "carrier"
    let s4 := emitEvent s3 (.playerDied killerId player.id killerName)
    let s5 := emitEvent s4 (.deathTimer now)
    emitEvent s5 (.killFeed killerName player.name killerWeapon)
  | none =>
    let pair := match s1.neutrals.find? (fun n => n.id = killerId) with
      | some killerNeutral =>
        (match killerNeutral.type with
          | .tank => "Island Tank"
          | .lighthouse => "Defense Tower"
          | _ => "Enemy", killerNeutral.type.str)
      | none => ("Unknown", weaponType)
    let s4 := emitEvent s1 (.playerDied killerId player.id pair.1)
    let s5 := emitEvent s4 (.deathTimer now)
    emitEvent s5 (.killFeed pair.1 player.name pair.2)

/-- `handlePlayerDeath(player, killerId, weaponType)`; `player` is the live
object (the entry of `this.players` with its id), `now` the wall clock. -/
def handlePlayerDeath (now : Int) (s : ServerState) (player : Player)
    (killerId weaponType : String) : ServerState :=
  if player.isDead then s
  else
    let s0 :=
      if player.id = localPlayerId then
        { saveGameResult now s player with storageSave := none }
      else s
    let victim := { player with
      ship := { player.ship with health := 0 }
      isDead := true
      deathTime := now }
    let s1 := modifyPlayer s0 player.id (fun _ => victim)
    resolveKillerAndNotify now s1 player killerId weaponType

/-- `getNeutralRadius(type)`. -/
def getNeutralRadius : NeutralType → ℚ
  | .buoy => 15
  | .cargo => 30
  | .lighthouse => 25
  | .tank => 20

/-! ## Collision resolution (`checkCollisions` and its four passes)

The spatial grids are built over entity ids; a candidate produced by a
grid query is dereferenced against the current state, which models the
object references the source stores in the grid. -/

/-- The inner candidate loop of `checkBulletShipCollisions` for one
bullet. Returns the updated state and removal set; a damaging hit `break`s
out, a shielded hit `continue`s. -/
def bulletShipCandLoop (now : Int) (bullet : Bullet) (cands : List String)
    (s : ServerState) (bulletsToRemove : List String) : ServerState × List String :=
  match cands with
  | [] => (s, bulletsToRemove)
  | cid :: rest =>
    match findPlayer s cid with
    | none => bulletShipCandLoop now bullet rest s bulletsToRemove
    | some player =>
      if bullet.ownerId = player.id ∨ player.isDead = true ∨
          player.ship.isStealthed = true ∨ now < player.spawnProtectionUntil then
        bulletShipCandLoop now bullet rest s bulletsToRemove
      else
        let hitDistance := SHIP_RADIUS + BULLET_RADIUS
        let dx := bullet.x - player.ship.x
        let dy := bullet.y - player.ship.y
        let distanceSq := dx * dx + dy * dy
        if distanceSq < hitDistance * hitDistance then
          let toRemove' := addSet bulletsToRemove bullet.id
          if player.ship.isShielded then
            let s' := emitEvent s (.damageDealt player.ship.x player.ship.y 0 false)
            bulletShipCandLoop now bullet rest s' toRemove'
          else
            let player' := { player with ship :=
              { player.ship with health := player.ship.health - bullet.damage } }
            let s1 := modifyPlayer s player.id (fun _ => player')
            let s2 := emitEvent s1 (.damageDealt player.ship.x player.ship.y bullet.damage
              (decide (30 ≤ bullet.damage)))
            let s3 :=
              if player'.ship.health ≤ 0 then
                handlePlayerDeath now s2 player' bullet.ownerId bullet.type.str
              else s2
            (s3, toRemove')
        else bulletShipCandLoop now bullet rest s bulletsToRemove

/-- The outer bullet loop of `checkBulletShipCollisions` over a snapshot
of `this.bullets` (the array is not mutated during the pass). -/
def bulletShipLoop (now : Int) (grid : SpatialHashGrid String) (bullets : List Bullet)
    (s : ServerState) (bulletsToRemove : List String) : ServerState × List String :=
  match bullets with
  | [] => (s, bulletsToRemove)
  | bullet :: rest =>
    if bullet.id ∈ bulletsToRemove then bulletShipLoop now grid rest s bulletsToRemove
    else
      let cands := grid.queryInto bullet.x bullet.y (SHIP_RADIUS + BULLET_RADIUS) []
      let r := bulletShipCandLoop now bullet cands s bulletsToRemove
      bulletShipLoop now grid rest r.1 r.2

/-- `checkBulletShipCollisions(shipGrid, bulletsToRemove)`. -/
def checkBulletShipCollisions (now : Int) (shipGrid : SpatialHashGrid String)
    (s : ServerState) (bulletsToRemove : List String) : ServerState × List String :=
  bulletShipLoop now shipGrid s.bullets s bulletsToRemove

/-- The inner candidate loop of `checkBulletNeutralCollisions` for one
bullet; any hit `break`s. -/
def bulletNeutralCandLoop (bullet : Bullet) (cands : List String) (s : ServerState)
    (bulletsToRemove neutralsToRemove : List String) :
    ServerState × List String × List String :=
  match cands with
  | [] => (s, bulletsToRemove, neutralsToRemove)
  | cid :: rest =>
    match findNeutral s cid with
    | none => bulletNeutralCandLoop bullet rest s bulletsToRemove neutralsToRemove
    | some neutral =>
      let neutralRadius := getNeutralRadius neutral.type
      if bullet.ownerId = neutral.id ∨ (findPlayer s bullet.ownerId).isNone then
        bulletNeutralCandLoop bullet rest s bulletsToRemove neutralsToRemove
      else
        let hitDistance := neutralRadius + BULLET_RADIUS
        let dx := bullet.x - neutral.x
        let dy := bullet.y - neutral.y
        let distanceSq := dx * dx + dy * dy
        if distanceSq < hitDistance * hitDistance then
          let neutral' := { neutral with health := neutral.health - bullet.damage }
          let s1 := modifyNeutral s neutral.id (fun _ => neutral')
          let toRemove' := addSet bulletsToRemove bullet.id
          if neutral'.health ≤ 0 then
            let nRemove' := addSet neutralsToRemove neutral.id
            match findPlayer s1 bullet.ownerId with
            | some _ =>
              let s2 := awardXP s1 bullet.ownerId neutral.xpValue
              let s3 := emitEvent s2 (.xpGained neutral.x neutral.y neutral.xpValue)
              (s3, toRemove', nRemove')
            | none => (s1, toRemove', nRemove')
          else (s1, toRemove', neutralsToRemove)
        else bulletNeutralCandLoop bullet rest s bulletsToRemove neutralsToRemove

/-- The outer bullet loop of `checkBulletNeutralCollisions`. -/
def bulletNeutralLoop (grid : SpatialHashGrid String) (bullets : List Bullet)
    (s : ServerState) (bulletsToRemove neutralsToRemove : List String) :
    ServerState × List String × List String :=
  match bullets with
  | [] => (s, bulletsToRemove, neutralsToRemove)
  | bullet :: rest =>
    if bullet.id ∈ bulletsToRemove then
      bulletNeutralLoop grid rest s bulletsToRemove neutralsToRemove
    else
      let maxNeutralRadius : ℚ := 30
      let cands := grid.queryInto bullet.x bullet.y (BULLET_RADIUS + maxNeutralRadius) []
      let r := bulletNeutralCandLoop bullet cands s bulletsToRemove neutralsToRemove
      bulletNeutralLoop grid rest r.1 r.2.1 r.2.2

/-- `checkBulletNeutralCollisions(neutralGrid, bulletsToRemove,
neutralsToRemove)`. -/
def checkBulletNeutralCollisions (neutralGrid : SpatialHashGrid String) (s : ServerState)
    (bulletsToRemove neutralsToRemove : List String) :
    ServerState × List String × List String :=
  bulletNeutralLoop neutralGrid s.bullets s bulletsToRemove neutralsToRemove

/-- First index of `pid` in the living-player id list (the `playerIndex`
map of `checkShipShipCollisions`). -/
def playerIndexOf (livingIds : List String) (pid : String) : Option Nat :=
  livingIds.indexOf? pid

/-- The death check `checkShipShipCollisions` performs for each ship of a
colliding pair: re-fetch the current object with id `did`, and if its
health dropped to zero or below and it is not yet dead, handle its death
with the other ship `oid` as killer. -/
def shipDeathCheck (now : Int) (s : ServerState) (did oid : String) : ServerState :=
  match findPlayer s did with
  | some pc =>
    if pc.ship.health ≤ 0 ∧ pc.isDead = false then
      handlePlayerDeath now s pc oid "collision"
    else s
  | none => s

/-- The hit resolution for one overlapping ship pair in
`checkShipShipCollisions`: separate the two ships along the center line,
apply one point of collision damage to each, then run both re-fetching
death checks in order. -/
def shipShipHit (now : Int) (s : ServerState) (p1id cid : String) (p1 p2 : Player) :
    ServerState :=
  let hitDistance := SHIP_RADIUS * 2
  let dx := p2.ship.x - p1.ship.x
  let dy := p2.ship.y - p1.ship.y
  let distanceSq := dx * dx + dy * dy
  let distance := sqrtQ distanceSq
  let overlap := (hitDistance - distance) / 2
  let nx := dx / distance
  let ny := dy / distance
  let p1' := { p1 with ship := { p1.ship with
    x := p1.ship.x - nx * overlap
    y := p1.ship.y - ny * overlap
    health := p1.ship.health - 1 } }
  let p2' := { p2 with ship := { p2.ship with
    x := p2.ship.x + nx * overlap
    y := p2.ship.y + ny * overlap
    health := p2.ship.health - 1 } }
  let s1 := modifyPlayer (modifyPlayer s p1id (fun _ => p1')) cid (fun _ => p2')
  let s2 := shipDeathCheck now s1 p1id cid
  shipDeathCheck now s2 cid p1id

/-- The candidate loop of `checkShipShipCollisions` for the pair anchor at
index `i` (id `p1id`); both ships are mutated through their references,
and each ship's death check reads the then-current object. -/
def shipShipCandLoop (now : Int) (livingIds : List String) (i : Nat) (p1id : String)
    (cands : List String) (s : ServerState) : ServerState :=
  match cands with
  | [] => s
  | cid :: rest =>
    let step : ServerState :=
      match playerIndexOf livingIds cid with
      | none => s
      | some j =>
        if j ≤ i then s
        else
          match findPlayer s p1id, findPlayer s cid with
          | some p1, some p2 =>
            let hitDistance := SHIP_RADIUS * 2
            let dx := p2.ship.x - p1.ship.x
            let dy := p2.ship.y - p1.ship.y
            let distanceSq := dx * dx + dy * dy
            if distanceSq < hitDistance * hitDistance ∧ 1/1000000000 < distanceSq then
              shipShipHit now s p1id cid p1 p2
            else s
          | _, _ => s
    shipShipCandLoop now livingIds i p1id rest step

/-- The outer loop of `checkShipShipCollisions`: for each index `i` the
anchor ship is dereferenced for its current position, then its grid
candidates are paired. -/
def shipShipOuter (now : Int) (grid : SpatialHashGrid String) (livingIds : List String)
    (pending : List (Nat × String)) (s : ServerState) : ServerState :=
  match pending with
  | [] => s
  | (i, pid) :: rest =>
    let s' :=
      match findPlayer s pid with
      | none => s
      | some p1 =>
        let cands := grid.queryInto p1.ship.x p1.ship.y (SHIP_RADIUS * 2) []
        shipShipCandLoop now livingIds i pid cands s
    shipShipOuter now grid livingIds rest s'

/-- `checkShipShipCollisions(livingPlayers, shipGrid)`. -/
def checkShipShipCollisions (now : Int) (grid : SpatialHashGrid String)
    (livingIds : List String) (s : ServerState) : ServerState :=
  shipShipOuter now grid livingIds livingIds.enum s

/-- The drone-vs-ship candidate loop of `checkDroneCollisions` for one
drone: no `break`; the drone is pushed back on each hit and subsequent
candidates see the moved drone. -/
def droneShipCandLoop (now : Int) (drone : Drone) (cands : List String) (s : ServerState) :
    Drone × ServerState :=
  match cands with
  | [] => (drone, s)
  | cid :: rest =>
    match findPlayer s cid with
    | none => droneShipCandLoop now drone rest s
    | some player =>
      if player.id = drone.ownerId ∨ player.isDead = true ∨
          player.ship.isStealthed = true ∨ now < player.spawnProtectionUntil then
        droneShipCandLoop now drone rest s
      else
        let shipHitDistance := DRONE_RADIUS + SHIP_RADIUS
        let dx := drone.x - player.ship.x
        let dy := drone.y - player.ship.y
        let distanceSq := dx * dx + dy * dy
        if distanceSq < shipHitDistance * shipHitDistance ∧ 1/1000000000 < distanceSq then
          let s1 :=
            if player.ship.isShielded = false then
              let player' := { player with ship :=
                { player.ship with health := player.ship.health - DRONE_DAMAGE } }
              let sa := modifyPlayer s player.id (fun _ => player')
              let sb := emitEvent sa
                (.damageDealt player.ship.x player.ship.y DRONE_DAMAGE false)
              if player'.ship.health ≤ 0 then
                handlePlayerDeath now sb player' drone.ownerId "drone"
              else sb
            else s
          let distance := sqrtQ distanceSq
          let drone' := { drone with
            x := drone.x + (dx / distance) * 30
            y := drone.y + (dy / distance) * 30 }
          droneShipCandLoop now drone' rest s1
        else droneShipCandLoop now drone rest s

/-- The drone-vs-neutral candidate loop of `checkDroneCollisions` for one
drone (no `break`; already-scheduled neutrals are skipped). -/
def droneNeutralCandLoop (drone : Drone) (ownerId : String) (cands : List String)
    (s : ServerState) (neutralsToRemove : List String) : ServerState × List String :=
  match cands with
  | [] => (s, neutralsToRemove)
  | cid :: rest =>
    match findNeutral s cid with
    | none => droneNeutralCandLoop drone ownerId rest s neutralsToRemove
    | some neutral =>
      if neutral.id ∈ neutralsToRemove then
        droneNeutralCandLoop drone ownerId rest s neutralsToRemove
      else
        let neutralRadius := getNeutralRadius neutral.type
        let hitDistance := DRONE_RADIUS + neutralRadius
        let dx := drone.x - neutral.x
        let dy := drone.y - neutral.y
        let distanceSq := dx * dx + dy * dy
        if distanceSq < hitDistance * hitDistance then
          let neutral' := { neutral with health := neutral.health - DRONE_DAMAGE }
          let s1 := modifyNeutral s neutral.id (fun _ => neutral')
          if neutral'.health ≤ 0 then
            let nRemove' := addSet neutralsToRemove neutral.id
            let s2 := awardXP s1 ownerId neutral.xpValue
            let s3 := emitEvent s2 (.xpGained neutral.x neutral.y neutral.xpValue)
            droneNeutralCandLoop drone ownerId rest s3 nRemove'
          else droneNeutralCandLoop drone ownerId rest s1 neutralsToRemove
        else droneNeutralCandLoop drone ownerId rest s neutralsToRemove

/-- The body of the drone loop for one drone whose owner is present: run
the ship pass (pushing the drone back on hits), then the neutral pass at
the drone's updated position, then commit the drone's position updates. -/
def droneStep (now : Int) (shipGrid neutralGrid : SpatialHashGrid String)
    (drone : Drone) (s : ServerState) (neutralsToRemove : List String) :
    ServerState × List String :=
  let shipHitDistance := DRONE_RADIUS + SHIP_RADIUS
  let shipCands := shipGrid.queryInto drone.x drone.y shipHitDistance []
  let dr := droneShipCandLoop now drone shipCands s
  let maxNeutralRadius : ℚ := 30
  let neutralCands := neutralGrid.queryInto dr.1.x dr.1.y
    (DRONE_RADIUS + maxNeutralRadius) []
  let nr := droneNeutralCandLoop dr.1 drone.ownerId neutralCands dr.2 neutralsToRemove
  (modifyDrone nr.1 drone.id (fun _ => dr.1), nr.2)

/-- The drone loop of `checkDroneCollisions` over a snapshot of
`this.drones`; each drone's position updates are committed to the state
after its two candidate loops. -/
def droneLoop (now : Int) (shipGrid neutralGrid : SpatialHashGrid String)
    (drones : List Drone) (s : ServerState) (neutralsToRemove : List String) :
    ServerState × List String :=
  match drones with
  | [] => (s, neutralsToRemove)
  | drone :: rest =>
    match findPlayer s drone.ownerId with
    | none => droneLoop now shipGrid neutralGrid rest s neutralsToRemove
    | some _ =>
      let r := droneStep now shipGrid neutralGrid drone s neutralsToRemove
      droneLoop now shipGrid neutralGrid rest r.1 r.2

/-- `checkDroneCollisions(shipGrid, neutralGrid, neutralsToRemove)`. -/
def checkDroneCollisions (now : Int) (shipGrid neutralGrid : SpatialHashGrid String)
    (s : ServerState) (neutralsToRemove : List String) : ServerState × List String :=
  droneLoop now shipGrid neutralGrid s.drones s neutralsToRemove

/-- The four passes of `checkCollisions` over already-built grids,
followed by the single compacting removal pass. -/
def checkCollisionsWith (now : Int) (shipGrid neutralGrid : SpatialHashGrid String)
    (livingIds : List String) (s : ServerState) : ServerState :=
  let r1 := checkBulletShipCollisions now shipGrid s []
  let r2 := checkBulletNeutralCollisions neutralGrid r1.1 r1.2 []
  let s3 := checkShipShipCollisions now shipGrid livingIds r2.1
  let r4 := checkDroneCollisions now shipGrid neutralGrid s3 r2.2.2
  let bulletsToRemove := r2.2.1
  let neutralsToRemove := r4.2
  let s5 := { r4.1 with bullets := r4.1.bullets.filter (fun b => b.id ∉ bulletsToRemove) }
  { s5 with neutrals := s5.neutrals.filter (fun n => n.id ∉ neutralsToRemove) }

/-- `checkCollisions()`: build fresh grids over living ships and current
neutrals, run the four passes, then apply the collected removals in a
single compacting pass. -/
def checkCollisions (now : Int) (s : ServerState) : ServerState :=
  let livingPlayers := s.players.filter (fun p => p.isDead = false)
  let shipGrid := livingPlayers.foldl
    (fun g p => g.insert p.ship.x p.ship.y p.id) (SpatialHashGrid.create String 140)
  let neutralGrid := s.neutrals.foldl
    (fun g n => g.insert n.x n.y n.id) (SpatialHashGrid.create String 140)
  let livingIds := livingPlayers.map (fun p => p.id)
  checkCollisionsWith now shipGrid neutralGrid livingIds s

/-! ## Bullets and spawners

`Math.cos`/`Math.sin`/`Phaser.Math.Angle.Between` are transcendental, so
they enter the embedding as function parameters; every concrete
instantiation uses angles at which the instantiating functions agree with
the exact trigonometric values (e.g. rotation `0`). -/

/-- `spawnBullet(player)`. -/
def spawnBullet (cosQ sinQ : ℚ → ℚ) (s : ServerState) (player : Player) : ServerState :=
  let stats := SHIP_STATS player.ship.shipClass
  let angle := player.ship.rotation
  let speed : ℚ := 600
  let spawnX := player.ship.x + cosQ angle * 30
  let spawnY := player.ship.y + sinQ angle * 30
  let b : Bullet :=
    { id := "bullet-" ++ toString s.bulletIdCounter
      ownerId := player.id
      x := spawnX
      y := spawnY
      velocityX := cosQ angle * speed
      velocityY := sinQ angle * speed
      damage := stats.damage + player.ship.stats.damageBonus * 2
      lifetime := 2000
      type := .cannon
      ignoreTerrain := true }
  { s with bullets := s.bullets ++ [b], bulletIdCounter := s.bulletIdCounter + 1 }

/-- `spawnNeutralBullet(source, target)`; `angle` is the
`Phaser.Math.Angle.Between` value, supplied by the caller's `angleOf`. -/
def spawnNeutralBullet (cosQ sinQ : ℚ → ℚ) (angleOf : ℚ → ℚ → ℚ → ℚ → ℚ)
    (s : ServerState) (source : NeutralObject) (target : Player) : ServerState :=
  let speed : ℚ := 400
  let angle := angleOf source.x source.y target.ship.x target.ship.y
  let damage := if source.type = .lighthouse then LIGHTHOUSE_DAMAGE else TANK_DAMAGE
  let offset : ℚ := if source.type = .tank then 40 else 50
  let b : Bullet :=
    { id := "bullet-" ++ toString s.bulletIdCounter
      ownerId := source.id
      x := source.x + cosQ angle * offset
      y := source.y + sinQ angle * offset
      velocityX := cosQ angle * speed
      velocityY := sinQ angle * speed
      damage := damage
      lifetime := 3000
      type := .cannon
      ignoreTerrain := source.type = .tank }
  { s with bullets := s.bullets ++ [b], bulletIdCounter := s.bulletIdCounter + 1 }

/-- The body of the `updateBullets` loop for one bullet: move it, then
decide removal (lifetime, world bounds, island impact unless
terrain-ignoring). `none` means the bullet is spliced out. -/
def updateBulletStep (islands : List Island) (dt : ℚ) (b0 : Bullet) : Option Bullet :=
  let b := { b0 with
    x := b0.x + b0.velocityX * dt
    y := b0.y + b0.velocityY * dt
    lifetime := b0.lifetime - dt * 1000 }
  if b.lifetime ≤ 0 ∨ b.x < 0 ∨ WORLD_WIDTH < b.x ∨ b.y < 0 ∨ WORLD_HEIGHT < b.y then none
  else if b.ignoreTerrain = false ∧ (islands.any fun island =>
      let expanded := island.radius + BULLET_RADIUS
      ((getFirstSegmentCircleHitT (b.x - b.velocityX * dt) (b.y - b.velocityY * dt)
        b.x b.y island.x island.y expanded).isSome || isPointInIsland b.x b.y island)) = true
  then none
  else some b

/-- `updateBullets(dt)` (a reverse-iteration splice loop is an
order-preserving filter). -/
def updateBullets (dt : ℚ) (s : ServerState) : ServerState :=
  { s with bullets := s.bullets.filterMap (updateBulletStep s.islands dt) }

/-- The turret target-selection loop inside `updateNeutrals` (lines
583-599): nearest living, non-stealthed, non-protected player strictly
within `range` of the turret `n`. -/
def findTurretTarget (now : Int) (range : ℚ) (n : NeutralObject)
    (players : List Player) : Option Player :=
  (players.foldl
    (fun acc p =>
      if p.isDead = true ∨ p.ship.isStealthed = true then acc
      else if now < p.spawnProtectionUntil then acc
      else
        let dist := distanceBetween n.x n.y p.ship.x p.ship.y
        if dist < acc.1 then (dist, some p) else acc)
    (range, (none : Option Player))).2

/-! ## Snapshot emission -/

/-- `getLeaderboard()`. -/
def getLeaderboard (s : ServerState) : List LeaderboardEntry :=
  ((((s.players.filter (fun p => p.isDead = false)).map
    (fun p => LeaderboardEntry.mk p.id p.name p.ship.score p.ship.kills
      p.ship.level p.ship.shipClass)).mergeSort
    (fun a b => b.score ≤ a.score)).take 10)

/-- The snapshot `broadcastGameState` constructs. -/
def mkGameState (now : Int) (s : ServerState) : GameState :=
  { timestamp := now
    ships := s.players.map (fun p => p.ship)
    bullets := s.bullets
    neutrals := s.neutrals
    islands := s.islands
    leaderboard := getLeaderboard s
    drones := s.drones }

/-- `broadcastGameState()`. -/
def broadcastGameState (now : Int) (s : ServerState) : ServerState :=
  emitEvent s (.gameState (mkGameState now s))

/-! ## Stat upgrades, joining, respawn -/

/-- `recalculateShipStats(player)`. -/
def recalculateShipStats (player : Player) : Player :=
  let base := SHIP_STATS player.ship.shipClass
  let oldMax := player.ship.maxHealth
  let newMax := base.maxHealth + player.ship.stats.healthBonus * 10
  let newHealth :=
    if 0 < oldMax then jsRound ((player.ship.health : ℚ) / (oldMax : ℚ) * (newMax : ℚ))
    else player.ship.health
  { player with ship := { player.ship with maxHealth := newMax, health := newHealth } }

/-- `handleUpgradeStat(playerId, stat)`. -/
def handleUpgradeStat (s : ServerState) (playerId : String) (stat : StatKey) : ServerState :=
  match findPlayer s playerId with
  | none => s
  | some player =>
    if player.upgradePoints ≤ 0 then s
    else if MAX_STAT_POINTS ≤ player.ship.stats.get stat then s
    else
      let p1 := { player with
        ship := { player.ship with
          stats := player.ship.stats.set stat (player.ship.stats.get stat + 1) }
        upgradePoints := player.upgradePoints - 1 }
      let p2 := recalculateShipStats p1
      let s1 := modifyPlayer s playerId (fun _ => p2)
      savePlayerState (sendStats s1 p2) p2

/-- `handleUpgradeShipClass(playerId, shipClass)`. -/
def handleUpgradeShipClass (s : ServerState) (playerId : String) (shipClass : ShipClass) :
    ServerState :=
  match findPlayer s playerId with
  | none => s
  | some player =>
    if player.ship.level < SHIP_UNLOCK_LEVELS shipClass then s
    else
      let playerStats := SHIP_STATS shipClass
      let newMax := playerStats.maxHealth + player.ship.stats.healthBonus * 10
      let p1 := { player with ship := { player.ship with
        shipClass := shipClass, maxHealth := newMax, health := newMax } }
      let s1 := modifyPlayer s playerId (fun _ => p1)
      savePlayerState (sendStats s1 p1) p1

/-- `loadPlayerState(player)`: defensive defaulting over the persisted
record (`state.field || default`, so a stored `0` level falls back to 1). -/
def loadPlayerState (s : ServerState) (player : Player) : Player :=
  match s.storageSave with
  | none => player
  | some st =>
    let p1 := { player with
      ship := { player.ship with
        score := st.score
        level := if st.level = 0 then 1 else st.level
        xp := st.xp
        shipClass := st.shipClass
        stats := st.stats }
      upgradePoints := st.upgradePoints }
    let p2 := recalculateShipStats p1
    { p2 with ship := { p2.ship with health := p2.ship.maxHealth } }

/-- `this.players.set(id, player)`. -/
def setPlayer (s : ServerState) (player : Player) : ServerState :=
  if (findPlayer s player.id).isSome then modifyPlayer s player.id (fun _ => player)
  else { s with players := s.players ++ [player] }

/-- `handleJoinGame(playerId, playerName)`; `rx`, `ry` are the two
`Math.random()` rolls for the spawn position. -/
def handleJoinGame (now : Int) (rx ry : ℚ) (s : ServerState)
    (playerId playerName : String) : ServerState :=
  let spawnX := rx * 2000 + 500
  let spawnY := ry * 2000 + 500
  let baseStats := SHIP_STATS .patrol_boat
  let player : Player :=
    { id := playerId
      name := if playerName = "" then "Player" else playerName
      ship :=
        { id := playerId, x := spawnX, y := spawnY, rotation := 0
          velocityX := 0, velocityY := 0
          health := baseStats.maxHealth, maxHealth := baseStats.maxHealth
          level := 1, xp := 0, shipClass := .patrol_boat, kills := 0, score := 0
          stats := DEFAULT_STATS, abilityActive := false, abilityCooldown := 0
          isStealthed := false, isShielded := false }
      lastInput := ⟨some spawnX, some spawnY, 0, false, false, false⟩
      lastFireTime := 0
      upgradePoints := 0
      isDead := false
      deathTime := 0
      abilityActiveUntil := 0
      abilityCooldownUntil := 0
      spawnProtectionUntil := now + 3000 }
  let player := loadPlayerState s player
  let s1 := setPlayer s player
  let s2 := emitEvent s1 (.playerId playerId)
  let s3 := emitEvent s2 (.worldInit s1.islands)
  sendStats s3 player

/-- `handleRespawn(playerId)`; `rx`, `ry` are the `Math.random()` rolls for
the new position. -/
def handleRespawn (now : Int) (rx ry : ℚ) (s : ServerState) (playerId : String) :
    ServerState :=
  match findPlayer s playerId with
  | none => s
  | some player =>
    let baseStats := SHIP_STATS .patrol_boat
    let p1 := { player with
      isDead := false
      upgradePoints := 0
      spawnProtectionUntil := now + 3000
      ship := { player.ship with
        score := 0, level := 1, xp := 0, shipClass := .patrol_boat
        stats := DEFAULT_STATS, kills := 0
        maxHealth := baseStats.maxHealth, health := baseStats.maxHealth
        x := rx * 2000 + 500, y := ry * 2000 + 500, rotation := 0 } }
    let s1 := modifyPlayer s playerId (fun _ => p1)
    let s2 := savePlayerState s1 p1
    let s3 := emitEvent s2 (.respawned p1.ship.x p1.ship.y)
    sendStats s3 p1

/-! ## Neutral spawning -/

/-- The position-validity test of `spawnNeutral`'s retry loop. -/
def spawnNeutralValidPos (islands : List Island) (x y : ℚ) : Bool :=
  islands.all (fun isl => !(distanceBetween x y isl.x isl.y < isl.radius + 80))

/-- The bounded retry loop of `spawnNeutral` (`attempts < 20`): the `k`-th
random position is `positions k`. -/
def firstValidPos (islands : List Island) (positions : Nat → ℚ × ℚ) :
    Nat → Nat → Option (ℚ × ℚ)
  | _, 0 => none
  | k, fuel + 1 =>
    let pos := positions k
    if spawnNeutralValidPos islands pos.1 pos.2 then some pos
    else firstValidPos islands positions (k + 1) fuel

/-- `spawnNeutral()`; `rand` is the type roll, `rotAngle` the random cargo
heading (`Math.random() * Math.PI * 2`), `positions` the successive random
position rolls. -/
def spawnNeutral (rand rotAngle : ℚ) (cosQ sinQ : ℚ → ℚ) (positions : Nat → ℚ × ℚ)
    (s : ServerState) : ServerState :=
  if MAX_NEUTRALS ≤ s.neutrals.length then s
  else
    let type := if rand < 0.6 then NeutralType.buoy
      else if rand < 0.9 then NeutralType.cargo else NeutralType.lighthouse
    let health : Int := if type = .buoy then 25 else if type = .cargo then 60 else 120
    let xp : Int := if type = .buoy then 8 else if type = .cargo then 25 else 60
    match firstValidPos s.islands positions 0 20 with
    | none => s
    | some pos =>
      let rotation : ℚ := if type = .cargo then rotAngle else 0
      let velocityX : ℚ := if type = .cargo then cosQ rotation * CARGO_SPEED else 0
      let velocityY : ℚ := if type = .cargo then sinQ rotation * CARGO_SPEED else 0
      let n : NeutralObject :=
        { id := type.str ++ "-" ++ toString s.neutralIdCounter
          x := pos.1, y := pos.2, type := type
          health := health, maxHealth := health, xpValue := xp
          rotation := some rotation
          velocityX := some velocityX
          velocityY := some velocityY
          lastFireTime := none }
      { s with neutrals := s.neutrals ++ [n], neutralIdCounter := s.neutralIdCounter + 1 }

/-! ## Specification predicates and sample data -/

/-- The health invariant the spec asserts for a ship, relative to its
player's death flag: health never exceeds max, and a living player's
health is non-negative. -/
def PlayerHealthOk (p : Player) : Prop :=
  p.ship.health ≤ p.ship.maxHealth ∧ 0 ≤ p.ship.maxHealth ∧
    (p.isDead = false → 0 ≤ p.ship.health)

/-- The part of the health invariant that survives post-mortem damage. -/
def WeakHealthOk (p : Player) : Prop :=
  p.ship.health ≤ p.ship.maxHealth ∧ 0 ≤ p.ship.maxHealth

/-- Number of `damageDealt` events with a nonzero amount, i.e. the number
of actual health decrements a collision scan performed. -/
def countDamageHits (evs : List GameEvent) : Nat :=
  evs.countP (fun e => match e with
    | .damageDealt _ _ d _ => decide (d ≠ 0)
    | _ => false)

/-- Folding `insert` over a list of `(x, y, value)` triples. -/
def insertAll {T : Type} (g : SpatialHashGrid T) (items : List (ℚ × ℚ × T)) :
    SpatialHashGrid T :=
  items.foldl (fun g it => g.insert it.1 it.2.1 it.2.2) g

/-- An empty world (no players, bullets, neutrals, islands or drones). -/
def emptyState : ServerState :=
  { players := [], bullets := [], neutrals := [], islands := [], drones := []
    lastNeutralSpawn := 0, droneIdCounter := 0, bulletIdCounter := 0
    neutralIdCounter := 0, events := [], storageSave := none
    storageLeaderboard := none }

/-- A freshly joined patrol-boat ship at `(x, y)` with the given health. -/
def sampleShip (pid : String) (x y : ℚ) (h mh : Int) : Ship :=
  { id := pid, x := x, y := y, rotation := 0, velocityX := 0, velocityY := 0
    health := h, maxHealth := mh, level := 1, xp := 0, shipClass := .patrol_boat
    kills := 0, score := 0, stats := DEFAULT_STATS, abilityActive := false
    abilityCooldown := 0, isStealthed := false, isShielded := false }

/-- A live player session around `sampleShip` with no spawn protection. -/
def samplePlayer (pid : String) (x y : ℚ) (h mh : Int) : Player :=
  { id := pid, name := pid, ship := sampleShip pid x y h mh
    lastInput := ⟨none, none, 0, false, false, false⟩
    spawnProtectionUntil := 0, lastFireTime := 0, upgradePoints := 0
    isDead := false, deathTime := 0, abilityActiveUntil := 0
    abilityCooldownUntil := 0 }

/-- The first island of `generateIslands` (center `(500, 500)`, radius
`100`); the polygon points are render-only and not used by collision. -/
def island0 : Island :=
  { id := "island_0", x := 500, y := 500, radius := 100
    shape := .irregular, points := none, seed := some 12345 }

/-- A bullet in flight, as `spawnBullet` would produce for a stationary
shooter (damage and flags identical; position chosen directly). -/
def sampleBullet (bid ownerId : String) (x y : ℚ) (damage : Int) : Bullet :=
  { id := bid, ownerId := ownerId, x := x, y := y, velocityX := 0, velocityY := 0
    damage := damage, lifetime := 1000, type := .cannon, ignoreTerrain := true }

/-- Scenario for the health invariant: `p1` at `(100, 100)` with 5 hp
overlaps `p2` at `(100, 130)`, and `p2`'s bullet sits on `p1`. -/
def overlapKillState : ServerState :=
  { emptyState with
    players := [samplePlayer "p1" 100 100 5 100, samplePlayer "p2" 100 130 100 100]
    bullets := [sampleBullet "b0" "p2" 100 100 12] }

/-- Scenario for bullet resolution: a shielded ship `pA` and an unshielded
ship `pB`, both within hit range of a third party's bullet, `pA` first in
grid order. -/
def shieldPairState : ServerState :=
  let pA := samplePlayer "pA" 100 100 100 100
  let pA := { pA with ship := { pA.ship with isShielded := true } }
  { emptyState with
    players := [pA, samplePlayer "pB" 100 130 100 100]
    bullets := [sampleBullet "b0" "shooter" 100 100 12] }

/-- The ship grid `checkCollisions` builds for `shieldPairState`. -/
def shieldPairGrid : SpatialHashGrid String :=
  ((SpatialHashGrid.create String 140).insert 100 100 "pA").insert 100 130 "pB"

/-- Scenario for the buoy kill: a patrol-boat shooter at `(170, 200)`
facing rotation `0` (so `cos = 1`, `sin = 0`), and a buoy at `(200, 200)`
with the exact stats `spawnNeutral` gives a buoy. -/
def buoyState : ServerState :=
  spawnNeutral 0 0 (fun _ => 1) (fun _ => 0) (fun _ => (200, 200))
    { emptyState with players := [samplePlayer "p1" 170 200 100 100] }

/-- `buoyState` after the shooter fires `n` times (each bullet spawns 30
ahead of the ship, i.e. exactly on the buoy). -/
def buoyStateShots : Nat → ServerState
  | 0 => buoyState
  | n + 1 =>
    spawnBullet (fun _ => 1) (fun _ => 0) (buoyStateShots n) (samplePlayer "p1" 170 200 100 100)

/-- A player holding one upgrade point, and the world containing it. -/
def upgPlayer : Player := { samplePlayer "p1" 100 100 100 100 with upgradePoints := 1 }

def upgState : ServerState := { emptyState with players := [upgPlayer] }

/-- The player record after spending the point on `healthBonus`. -/
def upgResult : Player :=
  (findPlayer (handleUpgradeStat upgState "p1" .healthBonus) "p1").getD
    (samplePlayer "z" 0 0 0 0)

/-- What spawn protection guarantees for the player entry with id `pid`
across a state transformation, provided protection is still active at
`now` and the entry's health does not exceed its max: the entry survives,
its health does not decrease, stays within its (unchanged) max, and the
protection deadline is untouched. -/
def ProtSafe (now : Int) (pid : String) (s s' : ServerState) : Prop :=
  ∀ p, findPlayer s pid = some p → now < p.spawnProtectionUntil →
    p.ship.health ≤ p.ship.maxHealth →
    ∃ p', findPlayer s' pid = some p' ∧
      p.ship.health ≤ p'.ship.health ∧
      p'.ship.health ≤ p'.ship.maxHealth ∧
      p'.spawnProtectionUntil = p.spawnProtectionUntil ∧
      p'.ship.maxHealth = p.ship.maxHealth

/-- A freshly spawned player still inside its protection window at time
`1000` (deadline `2000`), overlapped by a hostile bullet and drone. -/
def protPlayer : Player :=
  { samplePlayer "pp" 100 100 50 100 with spawnProtectionUntil := 2000 }

/-- The unprotected hostile player owning the bullet and the drone. -/
def protShooter : Player := samplePlayer "sh" 200 100 100 100

/-- A hostile drone sitting on the protected player. -/
def protDrone : Drone :=
  { id := "d0", ownerId := "sh", x := 100, y := 100, rotation := 0
    health := 100, lifetime := 5000, targetId := none }

/-- Scenario for spawn protection: the protected player at `(100, 100)`
under an enemy bullet and drone, the shooter at `(200, 100)`. -/
def protState : ServerState :=
  { emptyState with
    players := [protPlayer, protShooter]
    bullets := [sampleBullet "b0" "sh" 100 100 12]
    drones := [protDrone] }

/-- The ship grid `checkCollisions` builds for `protState`. -/
def protShipGrid : SpatialHashGrid String :=
  ((SpatialHashGrid.create String 140).insert 100 100 "pp").insert 200 100 "sh"

/-- The (empty) neutral grid for `protState`. -/
def protNeutralGrid : SpatialHashGrid String := SpatialHashGrid.create String 140

/-- An island tank turret at `(150, 100)`, within `TANK_RANGE` of both
players. -/
def turretN : NeutralObject :=
  { id := "n0", x := 150, y := 100, type := .tank, health := 60, maxHealth := 60
    xpValue := 30, rotation := none, velocityX := none, velocityY := none
    lastFireTime := some 0 }

/-! # Theorems -/

/-! ## Claim 6: death handling is idempotent -/

/-- C6: for every player whose `isDead` flag is already set,
`handlePlayerDeath` is a complete no-op — the early return fires before
the leaderboard write, the save-slot clear, the kill/score/XP awards and
the death events, so the whole world state (collections, storage slots and
event log) is returned unchanged. -/
theorem claim6_death_idempotent (now : Int) (s : ServerState) (player : Player)
    (killerId weaponType : String) (h : player.isDead = true) :
    handlePlayerDeath now s player killerId weaponType = s := by
  unfold handlePlayerDeath
  simp [h]

theorem claim6_witness :
    ({ samplePlayer "p1" 0 0 0 100 with isDead := true } : Player).isDead = true ∧
    handlePlayerDeath 5 overlapKillState
      { samplePlayer "p1" 0 0 0 100 with isDead := true } "p2" "cannon" = overlapKillState :=
  ⟨rfl, claim6_death_idempotent 5 overlapKillState _ "p2" "cannon" rfl⟩

/-! ## Claim 3: XP award and leveling -/

/-- C3 counterexample: awarding 250 XP to a fresh level-1 player leaves the
ship at level 2 with 200 XP, which still meets the 150-XP threshold of
level 2 while the level is below the cap — `awardXP` uses `if`, not
`while`, so the claimed post-condition (at cap, or xp strictly below the
current level's threshold) is false. -/
theorem claim3_counterexample :
    ¬((awardXPPlayer (samplePlayer "p" 0 0 100 100) 250).1.ship.level = MAX_LEVEL ∨
      (awardXPPlayer (samplePlayer "p" 0 0 100 100) 250).1.ship.xp <
        getXPToNextLevel (awardXPPlayer (samplePlayer "p" 0 0 100 100) 250).1.ship.level) := by
  decide

/-- C3 amended: `awardXP` adds the XP and ten times the XP as score, then
performs at most ONE level-up step: if the accumulated xp meets the
current level's threshold and the level is below the cap, the level
increments by one, the threshold is subtracted, exactly one upgrade point
is granted and health is set to maxHealth; otherwise level, points and
health are untouched. After it returns the xp may still meet or exceed
the new level's threshold (the loop the spec describes is an `if`). -/
theorem claim3_amended_single_step (player : Player) (amount : Int) :
    (awardXPPlayer player amount).1.ship.score = player.ship.score + amount * 10 ∧
    (awardXPPlayer player amount).1.ship.maxHealth = player.ship.maxHealth ∧
    (if getXPToNextLevel player.ship.level ≤ player.ship.xp + amount ∧
        player.ship.level < MAX_LEVEL then
      (awardXPPlayer player amount).1.ship.level = player.ship.level + 1 ∧
      (awardXPPlayer player amount).1.ship.xp =
        player.ship.xp + amount - getXPToNextLevel player.ship.level ∧
      (awardXPPlayer player amount).1.upgradePoints = player.upgradePoints + 1 ∧
      (awardXPPlayer player amount).1.ship.health = player.ship.maxHealth
    else
      (awardXPPlayer player amount).1.ship.level = player.ship.level ∧
      (awardXPPlayer player amount).1.ship.xp = player.ship.xp + amount ∧
      (awardXPPlayer player amount).1.upgradePoints = player.upgradePoints ∧
      (awardXPPlayer player amount).1.ship.health = player.ship.health) := by
  unfold awardXPPlayer
  by_cases h : getXPToNextLevel player.ship.level ≤ player.ship.xp + amount ∧
      player.ship.level < MAX_LEVEL
  · simp [h]
  · simp [h]

/-! ## Claim 4: the buoy-kill scenario -/

/-- C4 counterexample: the scenario's buoy has 25 health (as
`spawnNeutral` creates it) and the patrol boat's bullets deal exactly 12
damage (as `spawnBullet` computes), so after TWO hits the buoy is still in
the next snapshot with 1 health and the shooter's xp is unchanged — the
claim's `after the second hit the buoy is absent and xp +8` is false. -/
theorem claim4_counterexample :
    (buoyStateShots 2).bullets.map (fun b => b.damage) = [12, 12] ∧
    (buoyState.neutrals.map (fun n => (n.type, n.health, n.maxHealth, n.xpValue)) =
      [(NeutralType.buoy, 25, 25, 8)]) ∧
    ((mkGameState 1000 (checkCollisions 1000 (buoyStateShots 2))).neutrals.map
      (fun n => (n.id, n.health)) = [("buoy-0", 1)]) ∧
    ((findPlayer (checkCollisions 1000 (buoyStateShots 2)) "p1").map
      (fun p => p.ship.xp) = some 0) := by
  with_unfolding_all decide

/-- C4 amended: with THREE 12-damage hits (the 25-health buoy survives
`2 × 12 = 24` damage) the buoy is scheduled for removal and absent from
the next snapshot, and the shooter's ship xp has increased by exactly the
buoy's xpValue of 8. -/
theorem claim4_amended_three_hits :
    (buoyStateShots 3).bullets.map (fun b => b.damage) = [12, 12, 12] ∧
    ((mkGameState 1000 (checkCollisions 1000 (buoyStateShots 3))).neutrals = []) ∧
    ((findPlayer (checkCollisions 1000 (buoyStateShots 3)) "p1").map
      (fun p => p.ship.xp) = some 8) := by
  with_unfolding_all decide

/-! ## Claim 10: terrain-ignoring bullets -/

/-- C10: every bullet `spawnBullet` creates has `ignoreTerrain = true`;
`spawnNeutralBullet` sets `ignoreTerrain` exactly when the firing neutral
is a tank; and for a terrain-ignoring bullet the island-impact branch of
`updateBullets` never fires — the per-bullet step removes it only for
lifetime expiry or leaving the world bounds. -/
theorem claim10_ignore_terrain :
    (∀ (cosQ sinQ : ℚ → ℚ) (s : ServerState) (player : Player),
      ∀ b ∈ (spawnBullet cosQ sinQ s player).bullets,
        b ∈ s.bullets ∨ b.ignoreTerrain = true) ∧
    (∀ (cosQ sinQ : ℚ → ℚ) (angleOf : ℚ → ℚ → ℚ → ℚ → ℚ) (s : ServerState)
        (source : NeutralObject) (target : Player),
      ∀ b ∈ (spawnNeutralBullet cosQ sinQ angleOf s source target).bullets,
        b ∈ s.bullets ∨ b.ignoreTerrain = decide (source.type = NeutralType.tank)) ∧
    (∀ (islands : List Island) (dt : ℚ) (b : Bullet), b.ignoreTerrain = true →
      (updateBulletStep islands dt b = none ↔
        (b.lifetime - dt * 1000 ≤ 0 ∨ b.x + b.velocityX * dt < 0 ∨
         WORLD_WIDTH < b.x + b.velocityX * dt ∨ b.y + b.velocityY * dt < 0 ∨
         WORLD_HEIGHT < b.y + b.velocityY * dt))) := by
  refine ⟨?_, ?_, ?_⟩
  · intro cosQ sinQ s player b hb
    unfold spawnBullet at hb
    simp only [List.mem_append, List.mem_singleton] at hb
    rcases hb with hb | hb
    · exact Or.inl hb
    · subst hb; exact Or.inr rfl
  · intro cosQ sinQ angleOf s source target b hb
    unfold spawnNeutralBullet at hb
    simp only [List.mem_append, List.mem_singleton] at hb
    rcases hb with hb | hb
    · exact Or.inl hb
    · subst hb; exact Or.inr rfl
  · intro islands dt b h
    unfold updateBulletStep
    simp [h]
    constructor
    · intro f
      rcases le_or_lt b.lifetime (dt * 1000) with h1 | h1
      · exact Or.inl h1
      rcases lt_or_le (b.x + b.velocityX * dt) 0 with h2 | h2
      · exact Or.inr (Or.inl h2)
      rcases lt_or_le WORLD_WIDTH (b.x + b.velocityX * dt) with h3 | h3
      · exact Or.inr (Or.inr (Or.inl h3))
      rcases lt_or_le (b.y + b.velocityY * dt) 0 with h4 | h4
      · exact Or.inr (Or.inr (Or.inr (Or.inl h4)))
      exact Or.inr (Or.inr (Or.inr (Or.inr (f h1 h2 h3 h4))))
    · intro disj h1 h2 h3 h4
      rcases disj with d | d | d | d | d
      · linarith
      · linarith
      · linarith
      · linarith
      · exact d

/-! ## Generic plumbing lemmas -/

theorem find?_update_eq (l : List Player) (pid : String) (f : Player → Player)
    (hf : ∀ p, p.id = pid → (f p).id = pid) :
    (l.map (fun p => if p.id = pid then f p else p)).find? (fun p => p.id = pid) =
      (l.find? (fun p => p.id = pid)).map f := by
  induction l with
  | nil => rfl
  | cons a l ih =>
    by_cases ha : a.id = pid
    · simp [List.find?_cons, ha, hf a ha]
    · simp [List.find?_cons, ha, ih]

theorem findPlayer_modifyPlayer_self (s : ServerState) (pid : String) (f : Player → Player)
    (hf : ∀ p, p.id = pid → (f p).id = pid) :
    findPlayer (modifyPlayer s pid f) pid = (findPlayer s pid).map f :=
  find?_update_eq s.players pid f hf

theorem savePlayerState_players (s : ServerState) (p : Player) :
    (savePlayerState s p).players = s.players := by
  unfold savePlayerState
  split <;> rfl

theorem findPlayer_mem (s : ServerState) (pid : String) (p : Player)
    (h : findPlayer s pid = some p) : p ∈ s.players ∧ p.id = pid := by
  refine ⟨List.mem_of_find?_eq_some h, ?_⟩
  have := List.find?_some h
  simpa using this

/-! ## Claim 8: stat upgrade guards and effect -/

theorem statsGet_set_self (st : PlayerStats) (k : StatKey) (v : Int) :
    (st.set k v).get k = v := by
  cases k <;> rfl

theorem statsGet_set_other (st : PlayerStats) (k k' : StatKey) (v : Int) (h : k' ≠ k) :
    (st.set k v).get k' = st.get k' := by
  cases k <;> cases k' <;> first | rfl | exact absurd rfl h

/-- C8: `handleUpgradeStat` leaves the whole state unchanged when the
player is missing, has no upgrade points, or the named stat is already at
`MAX_STAT_POINTS`; otherwise it increments exactly that stat by one,
decrements `upgradePoints` by one and recomputes max health from the base
stats and the health bonus — so the stat stays at most `MAX_STAT_POINTS`
and the points stay non-negative. -/
theorem claim8_upgrade_stat (s : ServerState) (playerId : String) (stat : StatKey) :
    (findPlayer s playerId = none → handleUpgradeStat s playerId stat = s) ∧
    (∀ p, findPlayer s playerId = some p → p.upgradePoints ≤ 0 →
      handleUpgradeStat s playerId stat = s) ∧
    (∀ p, findPlayer s playerId = some p →
      MAX_STAT_POINTS ≤ p.ship.stats.get stat → handleUpgradeStat s playerId stat = s) ∧
    (∀ p, findPlayer s playerId = some p → 0 < p.upgradePoints →
      p.ship.stats.get stat < MAX_STAT_POINTS →
      findPlayer (handleUpgradeStat s playerId stat) playerId = some (recalculateShipStats
        { p with
          ship := { p.ship with stats := p.ship.stats.set stat (p.ship.stats.get stat + 1) }
          upgradePoints := p.upgradePoints - 1 }) ∧
      ∀ q, findPlayer (handleUpgradeStat s playerId stat) playerId = some q →
        q.ship.stats.get stat = p.ship.stats.get stat + 1 ∧
        (∀ k, k ≠ stat → q.ship.stats.get k = p.ship.stats.get k) ∧
        q.upgradePoints = p.upgradePoints - 1 ∧
        q.ship.stats.get stat ≤ MAX_STAT_POINTS ∧
        0 ≤ q.upgradePoints ∧
        q.ship.maxHealth =
          (SHIP_STATS q.ship.shipClass).maxHealth + q.ship.stats.healthBonus * 10) := by
  refine ⟨?_, ?_, ?_, ?_⟩
  · intro h
    unfold handleUpgradeStat
    rw [h]
  · intro p hp hpts
    unfold handleUpgradeStat
    rw [hp]
    simp [hpts]
  · intro p hp hmax
    unfold handleUpgradeStat
    rw [hp]
    by_cases hpts : p.upgradePoints ≤ 0
    · simp [hpts]
    · simp [hpts, hmax]
  · intro p hp hpts hlt
    have hid : p.id = playerId := (findPlayer_mem s playerId p hp).2
    have hfind : findPlayer (handleUpgradeStat s playerId stat) playerId =
        some (recalculateShipStats
          { p with
            ship := { p.ship with
              stats := p.ship.stats.set stat (p.ship.stats.get stat + 1) }
            upgradePoints := p.upgradePoints - 1 }) := by
      unfold handleUpgradeStat
      rw [hp]
      dsimp only
      rw [if_neg (by omega : ¬p.upgradePoints ≤ 0),
        if_neg (by omega : ¬MAX_STAT_POINTS ≤ p.ship.stats.get stat)]
      rw [show ∀ s2 q, findPlayer (savePlayerState (sendStats s2 q) q) playerId =
          findPlayer s2 playerId from fun s2 q => by
        unfold findPlayer
        rw [savePlayerState_players]
        rfl]
      rw [findPlayer_modifyPlayer_self s playerId _ (fun r hr => by
        simp [recalculateShipStats, hid])]
      rw [hp]
      rfl
    refine ⟨hfind, ?_⟩
    intro q hq
    rw [hfind] at hq
    injection hq with hq
    subst hq
    refine ⟨?_, ?_, ?_, ?_, ?_, ?_⟩
    · simp [recalculateShipStats, statsGet_set_self]
    · intro k hk
      simp [recalculateShipStats, statsGet_set_other _ _ _ _ hk]
    · simp [recalculateShipStats]
    · simp [recalculateShipStats, statsGet_set_self]; omega
    · simp [recalculateShipStats]; omega
    · simp [recalculateShipStats]

theorem claim8_witness :
    (0 < upgPlayer.upgradePoints) ∧
    (upgPlayer.ship.stats.get .healthBonus < MAX_STAT_POINTS) ∧
    (findPlayer upgState "p1" = some upgPlayer) ∧
    (findPlayer (handleUpgradeStat upgState "p1" .healthBonus) "p1" = some upgResult) ∧
    (upgResult.ship.stats.get .healthBonus = upgPlayer.ship.stats.get .healthBonus + 1 ∧
     (∀ k, k ≠ StatKey.healthBonus →
       upgResult.ship.stats.get k = upgPlayer.ship.stats.get k) ∧
     upgResult.upgradePoints = upgPlayer.upgradePoints - 1 ∧
     upgResult.ship.stats.get .healthBonus ≤ MAX_STAT_POINTS ∧
     0 ≤ upgResult.upgradePoints ∧
     upgResult.ship.maxHealth =
       (SHIP_STATS upgResult.ship.shipClass).maxHealth +
         upgResult.ship.stats.healthBonus * 10) :=
  ⟨by decide, by decide, by with_unfolding_all decide, by with_unfolding_all decide,
    (claim8_upgrade_stat upgState "p1" .healthBonus).2.2.2 upgPlayer
      (by with_unfolding_all decide) (by decide) (by decide) |>.2 upgResult
      (by with_unfolding_all decide)⟩

/-! ## Claim 9: spatial hash query is a superset of the box -/

theorem intRangeFrom_mem (n : Nat) (lo k : Int) (h1 : lo ≤ k) (h2 : k < lo + n) :
    k ∈ intRangeFrom lo n := by
  induction n generalizing lo with
  | zero => omega
  | succ n ih =>
    simp only [intRangeFrom]
    rcases eq_or_lt_of_le h1 with he | hlt
    · exact List.mem_cons.mpr (Or.inl he.symm)
    · exact List.mem_cons.mpr (Or.inr (ih (lo + 1) (by omega) (by omega)))

theorem intRangeIncl_mem (lo hi k : Int) (h1 : lo ≤ k) (h2 : k ≤ hi) :
    k ∈ intRangeIncl lo hi := by
  unfold intRangeIncl
  exact intRangeFrom_mem _ lo k h1 (by omega)

theorem insert_cellSize {T : Type} (g : SpatialHashGrid T) (x y : ℚ) (v : T) :
    (g.insert x y v).cellSize = g.cellSize := rfl

theorem insertAll_cellSize {T : Type} (g : SpatialHashGrid T) (items : List (ℚ × ℚ × T)) :
    (insertAll g items).cellSize = g.cellSize := by
  induction items generalizing g with
  | nil => rfl
  | cons it items ih => exact (ih (g.insert it.1 it.2.1 it.2.2)).trans rfl

theorem insert_mem_bucket_self {T : Type} (g : SpatialHashGrid T) (x y : ℚ) (v : T) :
    v ∈ (g.insert x y v).buckets
      (SpatialHashGrid.key ⌊x / g.cellSize⌋ ⌊y / g.cellSize⌋) := by
  unfold SpatialHashGrid.insert
  simp

theorem insert_mem_bucket_mono {T : Type} (g : SpatialHashGrid T) (x y : ℚ) (v w : T)
    (k : Nat) (h : w ∈ g.buckets k) : w ∈ (g.insert x y v).buckets k := by
  unfold SpatialHashGrid.insert
  dsimp only
  split
  · next heq => exact List.mem_append_left _ (heq ▸ h)
  · exact h

theorem insertAll_mem_bucket_mono {T : Type} (g : SpatialHashGrid T)
    (items : List (ℚ × ℚ × T)) (w : T) (k : Nat) (h : w ∈ g.buckets k) :
    w ∈ (insertAll g items).buckets k := by
  induction items generalizing g with
  | nil => exact h
  | cons it items ih =>
    exact ih (g.insert it.1 it.2.1 it.2.2) (insert_mem_bucket_mono _ _ _ _ _ _ h)

theorem insertAll_mem_bucket {T : Type} (g : SpatialHashGrid T) (items : List (ℚ × ℚ × T))
    (x y : ℚ) (v : T) (hmem : (x, y, v) ∈ items) :
    v ∈ (insertAll g items).buckets
      (SpatialHashGrid.key ⌊x / g.cellSize⌋ ⌊y / g.cellSize⌋) := by
  induction items generalizing g with
  | nil => cases hmem
  | cons it items ih =>
    rcases List.mem_cons.mp hmem with h | h
    · subst h
      exact insertAll_mem_bucket_mono _ items v _ (insert_mem_bucket_self g x y v)
    · have := ih (g.insert it.1 it.2.1 it.2.2) h
      rwa [insert_cellSize] at this

theorem mem_queryInto_of_bucket {T : Type} (g : SpatialHashGrid T) (x y range : ℚ)
    (out : List T) (v : T) (cx cy : Int)
    (hv : v ∈ g.buckets (SpatialHashGrid.key cx cy))
    (hcx1 : ⌊(x - max 0 range) / g.cellSize⌋ ≤ cx)
    (hcx2 : cx ≤ ⌊(x + max 0 range) / g.cellSize⌋)
    (hcy1 : ⌊(y - max 0 range) / g.cellSize⌋ ≤ cy)
    (hcy2 : cy ≤ ⌊(y + max 0 range) / g.cellSize⌋) :
    v ∈ g.queryInto x y range out := by
  unfold SpatialHashGrid.queryInto
  simp only [List.mem_flatMap]
  exact ⟨cy, intRangeIncl_mem _ _ _ hcy1 hcy2, cx, intRangeIncl_mem _ _ _ hcx1 hcx2, hv⟩

/-- C9: `queryInto` ignores the incoming buffer (it is cleared first), and
after any sequence of `insert`s its result contains every value inserted
at a point whose coordinates are within `range` of the query point in both
axes — in particular every value within Euclidean distance `range`. -/
theorem claim9_query_superset {T : Type} (cs : ℚ) (items : List (ℚ × ℚ × T))
    (x y range : ℚ) (out out' : List T) (xi yi : ℚ) (v : T) :
    ((insertAll (SpatialHashGrid.create T cs) items).queryInto x y range out =
      (insertAll (SpatialHashGrid.create T cs) items).queryInto x y range out') ∧
    ((xi, yi, v) ∈ items → |xi - x| ≤ range → |yi - y| ≤ range →
      v ∈ (insertAll (SpatialHashGrid.create T cs) items).queryInto x y range out) ∧
    ((xi, yi, v) ∈ items → 0 ≤ range → (xi - x) ^ 2 + (yi - y) ^ 2 ≤ range ^ 2 →
      v ∈ (insertAll (SpatialHashGrid.create T cs) items).queryInto x y range out) := by
  have hcs : (insertAll (SpatialHashGrid.create T cs) items).cellSize = max 1 cs :=
    insertAll_cellSize _ _
  have hcspos : (0 : ℚ) < (insertAll (SpatialHashGrid.create T cs) items).cellSize := by
    rw [hcs]
    exact lt_of_lt_of_le one_pos (le_max_left _ _)
  have main : (xi, yi, v) ∈ items → |xi - x| ≤ range → |yi - y| ≤ range →
      v ∈ (insertAll (SpatialHashGrid.create T cs) items).queryInto x y range out := by
    intro hmem hx hy
    have hb := insertAll_mem_bucket (SpatialHashGrid.create T cs) items xi yi v hmem
    have hrange : range ≤ max 0 range := le_max_right _ _
    have hx' := abs_le.mp hx
    have hy' := abs_le.mp hy
    have hcpos' : (0 : ℚ) < (SpatialHashGrid.create T cs).cellSize :=
      lt_of_lt_of_le one_pos (le_max_left _ _)
    refine mem_queryInto_of_bucket _ x y range out v _ _ hb ?_ ?_ ?_ ?_ <;>
      rw [insertAll_cellSize] <;>
      apply Int.floor_le_floor <;>
      rw [div_le_div_iff_of_pos_right hcpos'] <;> linarith
  refine ⟨rfl, main, ?_⟩
  intro hmem hr hsq
  have h1 : (xi - x) ^ 2 ≤ range ^ 2 := by nlinarith [sq_nonneg (yi - y)]
  have h2 : (yi - y) ^ 2 ≤ range ^ 2 := by nlinarith [sq_nonneg (xi - x)]
  have hx : |xi - x| ≤ range := by
    rw [abs_le]
    constructor <;> nlinarith
  have hy : |yi - y| ≤ range := by
    rw [abs_le]
    constructor <;> nlinarith
  exact main hmem hx hy

theorem claim9_witness :
    (((10 : ℚ), (20 : ℚ), "a") ∈ [((10 : ℚ), (20 : ℚ), "a"), (300, 40, "b")]) ∧
    |(10 : ℚ) - 0| ≤ 50 ∧ |(20 : ℚ) - 0| ≤ 50 ∧
    "a" ∈ (insertAll (SpatialHashGrid.create String 140)
      [((10 : ℚ), (20 : ℚ), "a"), (300, 40, "b")]).queryInto 0 0 50 ["stale"] :=
  ⟨by decide, by with_unfolding_all decide, by with_unfolding_all decide,
    (claim9_query_superset 140 [((10 : ℚ), (20 : ℚ), "a"), (300, 40, "b")] 0 0 50
      ["stale"] [] 10 20 "a").2.1 (by decide) (by with_unfolding_all decide)
      (by with_unfolding_all decide)⟩

/-! ## Claim 2: per-bullet resolution in `checkBulletShipCollisions` -/

theorem countDamageHits_append (a b : List GameEvent) :
    countDamageHits (a ++ b) = countDamageHits a + countDamageHits b :=
  List.countP_append _ _ _

theorem countDamageHits_singleton_le (e : GameEvent) : countDamageHits [e] ≤ 1 := by
  simp only [countDamageHits, List.countP_cons, List.countP_nil]
  split <;> simp

theorem modifyPlayer_events (s : ServerState) (pid : String) (f : Player → Player) :
    (modifyPlayer s pid f).events = s.events := rfl

theorem emitEvent_events (s : ServerState) (e : GameEvent) :
    (emitEvent s e).events = s.events ++ [e] := rfl

theorem savePlayerState_events (s : ServerState) (p : Player) :
    (savePlayerState s p).events = s.events := by
  unfold savePlayerState
  split <;> rfl

theorem awardXPPlayer_events_clean (p : Player) (amount : Int) :
    countDamageHits (awardXPPlayer p amount).2 = 0 := by
  unfold awardXPPlayer
  by_cases h : getXPToNextLevel (p.ship.xp + amount) ≤ p.ship.xp + amount ∧
      p.ship.level < MAX_LEVEL
  all_goals
    dsimp only
    split <;> simp [countDamageHits]

theorem saveGameResult_events (now : Int) (s : ServerState) (p : Player) :
    (saveGameResult now s p).events = s.events := rfl

theorem awardXP_events (s : ServerState) (pid : String) (amount : Int) :
    ∃ tail, (awardXP s pid amount).events = s.events ++ tail ∧
      countDamageHits tail = 0 := by
  unfold awardXP
  cases hf : findPlayer s pid with
  | none => exact ⟨[], by simp, rfl⟩
  | some p =>
    refine ⟨(awardXPPlayer p amount).2, ?_, awardXPPlayer_events_clean p amount⟩
    rw [savePlayerState_events]
    rfl

theorem exists_clean_tail_emit3 (sa sb : ServerState) (e1 e2 e3 : GameEvent)
    (hab : ∃ t, sb.events = sa.events ++ t ∧ countDamageHits t = 0)
    (h1 : countDamageHits [e1] = 0) (h2 : countDamageHits [e2] = 0)
    (h3 : countDamageHits [e3] = 0) :
    ∃ t, (emitEvent (emitEvent (emitEvent sb e1) e2) e3).events = sa.events ++ t ∧
      countDamageHits t = 0 := by
  obtain ⟨t, ht, hc⟩ := hab
  refine ⟨t ++ [e1, e2, e3], ?_, ?_⟩
  · simp [emitEvent_events, ht]
  · have : countDamageHits [e1, e2, e3] = 0 := by
      have := countDamageHits_append [e1] [e2, e3]
      have := countDamageHits_append [e2] [e3]
      simp only [List.singleton_append] at *
      omega
    rw [countDamageHits_append, hc, this]

theorem resolveKillerAndNotify_events (now : Int) (s1 : ServerState) (player : Player)
    (killerId weaponType : String) :
    ∃ tail, (resolveKillerAndNotify now s1 player killerId weaponType).events =
      s1.events ++ tail ∧ countDamageHits tail = 0 := by
  unfold resolveKillerAndNotify
  cases hk : findPlayer s1 killerId with
  | some killer =>
    dsimp only
    apply exists_clean_tail_emit3
    · exact (awardXP_events _ _ _).imp (fun t htc =>
        ⟨by rw [htc.1, modifyPlayer_events], htc.2⟩)
    · rfl
    · rfl
    · rfl
  | none =>
    dsimp only
    apply exists_clean_tail_emit3
    · exact ⟨[], by simp, rfl⟩
    · rfl
    · rfl
    · rfl

theorem handlePlayerDeath_events (now : Int) (s : ServerState) (victim : Player)
    (killerId weaponType : String) :
    ∃ tail, (handlePlayerDeath now s victim killerId weaponType).events =
      s.events ++ tail ∧ countDamageHits tail = 0 := by
  unfold handlePlayerDeath
  split
  · exact ⟨[], by simp, rfl⟩
  · obtain ⟨t, ht, hc⟩ := resolveKillerAndNotify_events now
      (modifyPlayer
        (if victim.id = localPlayerId then
          { saveGameResult now s victim with storageSave := none }
        else s) victim.id
        (fun _ => { victim with
          ship := { victim.ship with health := 0 }
          isDead := true
          deathTime := now })) victim killerId weaponType
    refine ⟨t, ?_, hc⟩
    refine ht.trans ?_
    rw [modifyPlayer_events]
    by_cases hl : victim.id = localPlayerId <;> simp [hl, saveGameResult_events]

/-- C2 counterexample: a third party's bullet overlaps the shielded ship
`pA` (first in grid order) and the unshielded ship `pB`. The pass marks
the bullet for removal at the shielded hit and emits the zero-damage
event, but then — because the shielded branch `continue`s instead of
stopping resolution — the same already-marked bullet subtracts its full
12 damage from `pB`, emitting a second, nonzero damage event. This
falsifies both `once marked for removal it applies no damage to a second
target` and `resolution for that bullet stops` after a shielded hit. -/
theorem claim2_counterexample :
    ((checkBulletShipCollisions 1000 shieldPairGrid shieldPairState []).2 = ["b0"]) ∧
    ((checkBulletShipCollisions 1000 shieldPairGrid shieldPairState []).1.events =
      [.damageDealt 100 100 0 false, .damageDealt 100 130 12 false]) ∧
    ((findPlayer (checkBulletShipCollisions 1000 shieldPairGrid shieldPairState []).1
        "pB").map (fun p => p.ship.health) = some 88) ∧
    ((findPlayer (checkBulletShipCollisions 1000 shieldPairGrid shieldPairState []).1
        "pA").map (fun p => p.ship.health) = some 100) := by
  with_unfolding_all decide

/-- C2 amended: within one tick's collision pass, each bullet's resolution
(the candidate loop of `checkBulletShipCollisions` for that bullet)
decrements the health of at most one ship: it emits at most one nonzero
`damageDealt` event, because an unshielded hit stops the loop. However a
hit on a shielded ship only marks the bullet for removal and emits a
zero-damage event, after which resolution CONTINUES, so a bullet already
in the removal set may still damage one ship later in the same pass. -/
theorem claim2_amended_at_most_one_hit (now : Int) (bullet : Bullet)
    (cands : List String) (s : ServerState) (bulletsToRemove : List String) :
    ∃ tail, (bulletShipCandLoop now bullet cands s bulletsToRemove).1.events =
      s.events ++ tail ∧ countDamageHits tail ≤ 1 := by
  induction cands generalizing s bulletsToRemove with
  | nil => exact ⟨[], by simp [bulletShipCandLoop], by simp [countDamageHits]⟩
  | cons cid rest ih =>
    unfold bulletShipCandLoop
    cases hf : findPlayer s cid with
    | none => exact ih s bulletsToRemove
    | some player =>
      dsimp only
      split
      · exact ih s bulletsToRemove
      · split
        · split
          · obtain ⟨t, ht, hc⟩ := ih (emitEvent s
              (.damageDealt player.ship.x player.ship.y 0 false))
              (addSet bulletsToRemove bullet.id)
            refine ⟨[.damageDealt player.ship.x player.ship.y 0 false] ++ t, ?_, ?_⟩
            · rw [ht, emitEvent_events, List.append_assoc]
            · simpa [countDamageHits_append, countDamageHits, List.countP_cons] using hc
          · split
            · obtain ⟨t, ht, hc⟩ := handlePlayerDeath_events now
                (emitEvent (modifyPlayer s player.id _)
                  (.damageDealt player.ship.x player.ship.y bullet.damage
                    (decide (30 ≤ bullet.damage)))) _ bullet.ownerId bullet.type.str
              refine ⟨[.damageDealt player.ship.x player.ship.y bullet.damage
                (decide (30 ≤ bullet.damage))] ++ t, ?_, ?_⟩
              · dsimp only
                rw [ht, emitEvent_events, modifyPlayer_events, List.append_assoc]
              · rw [countDamageHits_append, hc]
                simpa using countDamageHits_singleton_le _
            · refine ⟨[.damageDealt player.ship.x player.ship.y bullet.damage
                (decide (30 ≤ bullet.damage))], ?_, ?_⟩
              · dsimp only
                rw [emitEvent_events, modifyPlayer_events]
              · exact countDamageHits_singleton_le _
        · exact ih s bulletsToRemove

/-! ## Claim 5: swept clamping outside islands -/

theorem sqrtQ_nonneg (q : ℚ) : 0 ≤ sqrtQ q :=
  div_nonneg (by positivity) (by positivity)

theorem quadratic_root_on_circle (dx dy fx fy r s t : ℚ)
    (ha : ¬(dx * dx + dy * dy ≤ 1/1000000000))
    (hs : s * s = 2 * (fx * dx + fy * dy) * (2 * (fx * dx + fy * dy)) -
      4 * (dx * dx + dy * dy) * ((fx * fx + fy * fy) - r * r))
    (ht : t = (-(2 * (fx * dx + fy * dy)) - s) * (1 / (2 * (dx * dx + dy * dy))) ∨
          t = (-(2 * (fx * dx + fy * dy)) + s) * (1 / (2 * (dx * dx + dy * dy)))) :
    (fx + t * dx) * (fx + t * dx) + (fy + t * dy) * (fy + t * dy) = r * r := by
  have ha' : dx * dx + dy * dy ≠ 0 := by
    intro h0
    rw [h0] at ha
    exact ha (by norm_num)
  rcases ht with rfl | rfl <;>
    field_simp <;>
    nlinarith [hs, sq_nonneg (dx * dx + dy * dy)]

theorem getFirstSegmentCircleHitT_on_circle (ax ay bx b_y cx cy r t : ℚ)
    (ht : getFirstSegmentCircleHitT ax ay bx b_y cx cy r = some t)
    (hd : sqrtQ (segCircleDisc ax ay bx b_y cx cy r) *
          sqrtQ (segCircleDisc ax ay bx b_y cx cy r) =
          segCircleDisc ax ay bx b_y cx cy r) :
    (ax + (bx - ax) * t - cx) * (ax + (bx - ax) * t - cx) +
      (ay + (b_y - ay) * t - cy) * (ay + (b_y - ay) * t - cy) = r * r := by
  unfold getFirstSegmentCircleHitT at ht
  dsimp only at ht
  split_ifs at ht with h_a h_disc h_t1 h_t2
  · have htt := Option.some.inj ht
    have key := quadratic_root_on_circle (bx - ax) (b_y - ay) (ax - cx) (ay - cy) r
      (sqrtQ (segCircleDisc ax ay bx b_y cx cy r)) t h_a hd (Or.inl htt.symm)
    linear_combination key
  · have htt := Option.some.inj ht
    have key := quadratic_root_on_circle (bx - ax) (b_y - ay) (ax - cx) (ay - cy) r
      (sqrtQ (segCircleDisc ax ay bx b_y cx cy r)) t h_a hd (Or.inr htt.symm)
    linear_combination key

/-- C5 counterexample: calling the clamp with a zero-length segment that
sits exactly on the island's center (reachable in-game, since
`updatePlayers` trusts client-supplied coordinates) returns the island
center itself, which is strictly inside the expanded circle — the
degenerate `|| 1` fallback multiplies the zero movement vector instead of
pushing the entity out. -/
theorem claim5_counterexample :
    clampEntityOutsideIslandAlongSegment 500 500 500 500 25 island0 = (500, 500) ∧
    ((500 : ℚ) - island0.x) * ((500 : ℚ) - island0.x) +
      ((500 : ℚ) - island0.y) * ((500 : ℚ) - island0.y) <
      (island0.radius + 25) * (island0.radius + 25) := by
  with_unfolding_all decide

/-- C5 amended: in exact arithmetic (the hypotheses pin the four square
roots the call evaluates to their exact values) and for a positive
expanded radius, `clampEntityOutsideIslandAlongSegment` either returns the
untouched endpoint — then the endpoint is on or outside the expanded
circle — or returns a point at distance exactly
`island.radius + entityRadius + 0.01` from the island center, EXCEPT in
the degenerate case of a zero-length movement segment (`prev = next`)
whose endpoint lies within the `1e-6` guard of the island center, where
the fallback returns the island center itself (the counterexample). -/
theorem claim5_amended (prevX prevY nextX nextY entityRadius : ℚ) (island : Island)
    (hpos : 0 < island.radius + entityRadius)
    (h1 : sqrtQ ((nextX - island.x) * (nextX - island.x) +
            (nextY - island.y) * (nextY - island.y)) *
          sqrtQ ((nextX - island.x) * (nextX - island.x) +
            (nextY - island.y) * (nextY - island.y)) =
          (nextX - island.x) * (nextX - island.x) +
            (nextY - island.y) * (nextY - island.y))
    (h2 : sqrtQ ((nextX - prevX) * (nextX - prevX) +
            (nextY - prevY) * (nextY - prevY)) *
          sqrtQ ((nextX - prevX) * (nextX - prevX) +
            (nextY - prevY) * (nextY - prevY)) =
          (nextX - prevX) * (nextX - prevX) + (nextY - prevY) * (nextY - prevY))
    (h3 : sqrtQ (segCircleDisc prevX prevY nextX nextY island.x island.y
            (island.radius + entityRadius)) *
          sqrtQ (segCircleDisc prevX prevY nextX nextY island.x island.y
            (island.radius + entityRadius)) =
          segCircleDisc prevX prevY nextX nextY island.x island.y
            (island.radius + entityRadius))
    (h4 : sqrtQ (((segCircleHitPoint prevX prevY nextX nextY island.x island.y
              (island.radius + entityRadius)).1 - island.x) *
            ((segCircleHitPoint prevX prevY nextX nextY island.x island.y
              (island.radius + entityRadius)).1 - island.x) +
            ((segCircleHitPoint prevX prevY nextX nextY island.x island.y
              (island.radius + entityRadius)).2 - island.y) *
            ((segCircleHitPoint prevX prevY nextX nextY island.x island.y
              (island.radius + entityRadius)).2 - island.y)) *
          sqrtQ (((segCircleHitPoint prevX prevY nextX nextY island.x island.y
              (island.radius + entityRadius)).1 - island.x) *
            ((segCircleHitPoint prevX prevY nextX nextY island.x island.y
              (island.radius + entityRadius)).1 - island.x) +
            ((segCircleHitPoint prevX prevY nextX nextY island.x island.y
              (island.radius + entityRadius)).2 - island.y) *
            ((segCircleHitPoint prevX prevY nextX nextY island.x island.y
              (island.radius + entityRadius)).2 - island.y)) =
          ((segCircleHitPoint prevX prevY nextX nextY island.x island.y
              (island.radius + entityRadius)).1 - island.x) *
            ((segCircleHitPoint prevX prevY nextX nextY island.x island.y
              (island.radius + entityRadius)).1 - island.x) +
            ((segCircleHitPoint prevX prevY nextX nextY island.x island.y
              (island.radius + entityRadius)).2 - island.y) *
            ((segCircleHitPoint prevX prevY nextX nextY island.x island.y
              (island.radius + entityRadius)).2 - island.y)) :
    (clampEntityOutsideIslandAlongSegment prevX prevY nextX nextY entityRadius island =
        (nextX, nextY) ∧
      (island.radius + entityRadius) * (island.radius + entityRadius) ≤
        (nextX - island.x) * (nextX - island.x) +
        (nextY - island.y) * (nextY - island.y)) ∨
    (((clampEntityOutsideIslandAlongSegment prevX prevY nextX nextY entityRadius
          island).1 - island.x) *
        ((clampEntityOutsideIslandAlongSegment prevX prevY nextX nextY entityRadius
          island).1 - island.x) +
      ((clampEntityOutsideIslandAlongSegment prevX prevY nextX nextY entityRadius
          island).2 - island.y) *
        ((clampEntityOutsideIslandAlongSegment prevX prevY nextX nextY entityRadius
          island).2 - island.y) =
      (island.radius + entityRadius + 1/100) * (island.radius + entityRadius + 1/100)) ∨
    (prevX = nextX ∧ prevY = nextY ∧
      clampEntityOutsideIslandAlongSegment prevX prevY nextX nextY entityRadius island =
        (island.x, island.y)) := by
  have div_norm_scale : ∀ u v e K : ℚ, e ≠ 0 → u * u + v * v = e * e →
      (u / e * K) * (u / e * K) + (v / e * K) * (v / e * K) = K * K := by
    intro u v e K he huv
    field_simp
    linear_combination (K * K) * huv
  unfold clampEntityOutsideIslandAlongSegment
  dsimp only
  by_cases hin : (nextX - island.x) * (nextX - island.x) +
      (nextY - island.y) * (nextY - island.y) <
      (island.radius + entityRadius) * (island.radius + entityRadius)
  · rw [if_pos hin]
    by_cases hd1 : 1/1000000 < sqrtQ ((nextX - island.x) * (nextX - island.x) +
        (nextY - island.y) * (nextY - island.y))
    · rw [if_pos hd1]
      refine Or.inr (Or.inl ?_)
      dsimp only
      have hne : sqrtQ ((nextX - island.x) * (nextX - island.x) +
          (nextY - island.y) * (nextY - island.y)) ≠ 0 :=
        ne_of_gt (lt_trans (by norm_num) hd1)
      have key := div_norm_scale (nextX - island.x) (nextY - island.y) _
        (island.radius + entityRadius + 1/100) hne h1.symm
      linear_combination key
    · rw [if_neg hd1]
      by_cases hm : sqrtQ ((nextX - prevX) * (nextX - prevX) +
          (nextY - prevY) * (nextY - prevY)) = 0
      · have hmv : (nextX - prevX) * (nextX - prevX) +
            (nextY - prevY) * (nextY - prevY) = 0 := by
          rw [← h2, hm, mul_zero]
        have ha := mul_self_nonneg (nextX - prevX)
        have hb := mul_self_nonneg (nextY - prevY)
        have hx0 : nextX - prevX = 0 := mul_self_eq_zero.mp (by linarith)
        have hy0 : nextY - prevY = 0 := mul_self_eq_zero.mp (by linarith)
        refine Or.inr (Or.inr ⟨by linarith, by linarith, ?_⟩)
        rw [if_pos hm]
        rw [hx0, hy0]
        norm_num
      · rw [if_neg hm]
        refine Or.inr (Or.inl ?_)
        dsimp only
        have key := div_norm_scale (nextX - prevX) (nextY - prevY) _
          (island.radius + entityRadius + 1/100) hm h2.symm
        linear_combination key
  · rw [if_neg hin]
    cases hhit : getFirstSegmentCircleHitT prevX prevY nextX nextY island.x island.y
        (island.radius + entityRadius) with
    | none =>
      simp only [hhit]
      exact Or.inl ⟨trivial, le_of_not_lt hin⟩
    | some t =>
      simp only [hhit]
      refine Or.inr (Or.inl ?_)
      have honc := getFirstSegmentCircleHitT_on_circle prevX prevY nextX nextY
        island.x island.y (island.radius + entityRadius) t hhit h3
      have hp4 : segCircleHitPoint prevX prevY nextX nextY island.x island.y
          (island.radius + entityRadius) =
          (prevX + (nextX - prevX) * t, prevY + (nextY - prevY) * t) := by
        unfold segCircleHitPoint
        rw [hhit]
        rfl
      rw [hp4] at h4
      dsimp only at h4
      have hlen : sqrtQ ((prevX + (nextX - prevX) * t - island.x) *
          (prevX + (nextX - prevX) * t - island.x) +
          (prevY + (nextY - prevY) * t - island.y) *
          (prevY + (nextY - prevY) * t - island.y)) =
          island.radius + entityRadius := by
        have h4' : sqrtQ ((prevX + (nextX - prevX) * t - island.x) *
            (prevX + (nextX - prevX) * t - island.x) +
            (prevY + (nextY - prevY) * t - island.y) *
            (prevY + (nextY - prevY) * t - island.y)) *
            sqrtQ ((prevX + (nextX - prevX) * t - island.x) *
            (prevX + (nextX - prevX) * t - island.x) +
            (prevY + (nextY - prevY) * t - island.y) *
            (prevY + (nextY - prevY) * t - island.y)) =
            (island.radius + entityRadius) * (island.radius + entityRadius) := by
          rw [h4]
          linear_combination honc
        nlinarith [sqrtQ_nonneg ((prevX + (nextX - prevX) * t - island.x) *
          (prevX + (nextX - prevX) * t - island.x) +
          (prevY + (nextY - prevY) * t - island.y) *
          (prevY + (nextY - prevY) * t - island.y)), hpos]
      have hnz : sqrtQ ((prevX + (nextX - prevX) * t - island.x) *
          (prevX + (nextX - prevX) * t - island.x) +
          (prevY + (nextY - prevY) * t - island.y) *
          (prevY + (nextY - prevY) * t - island.y)) ≠ 0 := by
        rw [hlen]
        exact ne_of_gt hpos
      rw [if_neg hnz, hlen]
      have hE : island.radius + entityRadius ≠ 0 := ne_of_gt hpos
      have key := div_norm_scale (prevX + (nextX - prevX) * t - island.x)
        (prevY + (nextY - prevY) * t - island.y) (island.radius + entityRadius)
        (island.radius + entityRadius + 1/100) hE honc
      linear_combination key

theorem claim5_witness :
    ((0 : ℚ) < island0.radius + 25) ∧
    (sqrtQ (((700 : ℚ) - island0.x) * ((700 : ℚ) - island0.x) +
        ((500 : ℚ) - island0.y) * ((500 : ℚ) - island0.y)) *
      sqrtQ (((700 : ℚ) - island0.x) * ((700 : ℚ) - island0.x) +
        ((500 : ℚ) - island0.y) * ((500 : ℚ) - island0.y)) =
      ((700 : ℚ) - island0.x) * ((700 : ℚ) - island0.x) +
        ((500 : ℚ) - island0.y) * ((500 : ℚ) - island0.y)) ∧
    ((clampEntityOutsideIslandAlongSegment 700 500 700 500 25 island0 =
        ((700 : ℚ), (500 : ℚ)) ∧
      (island0.radius + 25) * (island0.radius + 25) ≤
        ((700 : ℚ) - island0.x) * ((700 : ℚ) - island0.x) +
        ((500 : ℚ) - island0.y) * ((500 : ℚ) - island0.y)) ∨
    (((clampEntityOutsideIslandAlongSegment 700 500 700 500 25 island0).1 - island0.x) *
        ((clampEntityOutsideIslandAlongSegment 700 500 700 500 25 island0).1 - island0.x) +
      ((clampEntityOutsideIslandAlongSegment 700 500 700 500 25 island0).2 - island0.y) *
        ((clampEntityOutsideIslandAlongSegment 700 500 700 500 25 island0).2 - island0.y) =
      (island0.radius + 25 + 1/100) * (island0.radius + 25 + 1/100)) ∨
    ((700 : ℚ) = 700 ∧ (500 : ℚ) = 500 ∧
      clampEntityOutsideIslandAlongSegment 700 500 700 500 25 island0 =
        (island0.x, island0.y))) := by
  have e1 : ((700 : ℚ) - island0.x) * ((700 : ℚ) - island0.x) +
      ((500 : ℚ) - island0.y) * ((500 : ℚ) - island0.y) = 40000 := by
    norm_num [island0]
  have s1 : sqrtQ 40000 = 200 := by with_unfolding_all decide
  have s0 : sqrtQ 0 = 0 := by with_unfolding_all decide
  have p0 : (0 : ℚ) < island0.radius + 25 := by norm_num [island0]
  have p1 : sqrtQ (((700 : ℚ) - island0.x) * ((700 : ℚ) - island0.x) +
      ((500 : ℚ) - island0.y) * ((500 : ℚ) - island0.y)) *
      sqrtQ (((700 : ℚ) - island0.x) * ((700 : ℚ) - island0.x) +
      ((500 : ℚ) - island0.y) * ((500 : ℚ) - island0.y)) =
      ((700 : ℚ) - island0.x) * ((700 : ℚ) - island0.x) +
      ((500 : ℚ) - island0.y) * ((500 : ℚ) - island0.y) := by
    rw [e1, s1]
    norm_num
  have e2 : ((700 : ℚ) - 700) * ((700 : ℚ) - 700) +
      ((500 : ℚ) - 500) * ((500 : ℚ) - 500) = 0 := by norm_num
  have p2 : sqrtQ (((700 : ℚ) - 700) * ((700 : ℚ) - 700) +
      ((500 : ℚ) - 500) * ((500 : ℚ) - 500)) *
      sqrtQ (((700 : ℚ) - 700) * ((700 : ℚ) - 700) +
      ((500 : ℚ) - 500) * ((500 : ℚ) - 500)) =
      ((700 : ℚ) - 700) * ((700 : ℚ) - 700) +
      ((500 : ℚ) - 500) * ((500 : ℚ) - 500) := by
    rw [e2, s0]
    norm_num
  have e3 : segCircleDisc 700 500 700 500 island0.x island0.y (island0.radius + 25) = 0 := by
    norm_num [segCircleDisc, island0]
  have p3 : sqrtQ (segCircleDisc 700 500 700 500 island0.x island0.y
      (island0.radius + 25)) *
      sqrtQ (segCircleDisc 700 500 700 500 island0.x island0.y (island0.radius + 25)) =
      segCircleDisc 700 500 700 500 island0.x island0.y (island0.radius + 25) := by
    rw [e3, s0]
    norm_num
  have ehit : segCircleHitPoint 700 500 700 500 island0.x island0.y
      (island0.radius + 25) = ((700 : ℚ), (500 : ℚ)) := by
    unfold segCircleHitPoint
    have : getFirstSegmentCircleHitT 700 500 700 500 island0.x island0.y
        (island0.radius + 25) = none := by
      unfold getFirstSegmentCircleHitT
      norm_num
    rw [this]
    norm_num
  have p4 : sqrtQ (((segCircleHitPoint 700 500 700 500 island0.x island0.y
        (island0.radius + 25)).1 - island0.x) *
      ((segCircleHitPoint 700 500 700 500 island0.x island0.y
        (island0.radius + 25)).1 - island0.x) +
      ((segCircleHitPoint 700 500 700 500 island0.x island0.y
        (island0.radius + 25)).2 - island0.y) *
      ((segCircleHitPoint 700 500 700 500 island0.x island0.y
        (island0.radius + 25)).2 - island0.y)) *
      sqrtQ (((segCircleHitPoint 700 500 700 500 island0.x island0.y
        (island0.radius + 25)).1 - island0.x) *
      ((segCircleHitPoint 700 500 700 500 island0.x island0.y
        (island0.radius + 25)).1 - island0.x) +
      ((segCircleHitPoint 700 500 700 500 island0.x island0.y
        (island0.radius + 25)).2 - island0.y) *
      ((segCircleHitPoint 700 500 700 500 island0.x island0.y
        (island0.radius + 25)).2 - island0.y)) =
      ((segCircleHitPoint 700 500 700 500 island0.x island0.y
        (island0.radius + 25)).1 - island0.x) *
      ((segCircleHitPoint 700 500 700 500 island0.x island0.y
        (island0.radius + 25)).1 - island0.x) +
      ((segCircleHitPoint 700 500 700 500 island0.x island0.y
        (island0.radius + 25)).2 - island0.y) *
      ((segCircleHitPoint 700 500 700 500 island0.x island0.y
        (island0.radius + 25)).2 - island0.y) := by
    rw [ehit]
    dsimp only
    rw [e1, s1]
    norm_num
  exact ⟨p0, p1, claim5_amended 700 500 700 500 25 island0 p0 p1 p2 p3 p4⟩

theorem claim10_witness :
    (sampleBullet "b" "o" 500 500 12).ignoreTerrain = true ∧
    (updateBulletStep [island0] (1/20) (sampleBullet "b" "o" 500 500 12) = none ↔
      ((sampleBullet "b" "o" 500 500 12).lifetime - (1/20) * 1000 ≤ 0 ∨
       (sampleBullet "b" "o" 500 500 12).x +
         (sampleBullet "b" "o" 500 500 12).velocityX * (1/20) < 0 ∨
       WORLD_WIDTH < (sampleBullet "b" "o" 500 500 12).x +
         (sampleBullet "b" "o" 500 500 12).velocityX * (1/20) ∨
       (sampleBullet "b" "o" 500 500 12).y +
         (sampleBullet "b" "o" 500 500 12).velocityY * (1/20) < 0 ∨
       WORLD_HEIGHT < (sampleBullet "b" "o" 500 500 12).y +
         (sampleBullet "b" "o" 500 500 12).velocityY * (1/20))) :=
  ⟨rfl, claim10_ignore_terrain.2.2 [island0] (1/20) (sampleBullet "b" "o" 500 500 12) rfl⟩

/-! ## Claim 7: spawn protection -/

theorem findPlayer_id (s : ServerState) (pid : String) (p : Player)
    (h : findPlayer s pid = some p) : p.id = pid :=
  (findPlayer_mem s pid p h).2

theorem findPlayer_eq_of_players_eq (s s' : ServerState) (h : s'.players = s.players)
    (pid : String) : findPlayer s' pid = findPlayer s pid := by
  simp only [findPlayer, h]

theorem find?_map_ite (l : List Player) (mid pid : String) (f : Player → Player)
    (hf : ∀ p, p.id = mid → (f p).id = mid) :
    (l.map (fun p => if p.id = mid then f p else p)).find? (fun p => p.id = pid) =
      (l.find? (fun p => p.id = pid)).map (fun p => if p.id = mid then f p else p) := by
  induction l with
  | nil => rfl
  | cons a l ih =>
    have hid : (if a.id = mid then f a else a).id = a.id := by
      by_cases h : a.id = mid
      · rw [if_pos h, hf a h, h]
      · rw [if_neg h]
    by_cases hpid : a.id = pid
    · rw [List.map_cons,
        List.find?_cons_of_pos _ (by simpa [hid] using hpid),
        List.find?_cons_of_pos _ (by simpa using hpid),
        Option.map_some']
    · rw [List.map_cons,
        List.find?_cons_of_neg _ (by simpa [hid] using hpid),
        List.find?_cons_of_neg _ (by simpa using hpid)]
      exact ih

theorem findPlayer_modifyPlayer (s : ServerState) (mid pid : String) (f : Player → Player)
    (hf : ∀ p, p.id = mid → (f p).id = mid) :
    findPlayer (modifyPlayer s mid f) pid =
      (findPlayer s pid).map (fun p => if p.id = mid then f p else p) :=
  find?_map_ite s.players mid pid f hf

theorem protSafe_refl (now : Int) (pid : String) (s : ServerState) : ProtSafe now pid s s :=
  fun p hp _ hw => ⟨p, hp, le_refl _, hw, rfl, rfl⟩

theorem protSafe_trans {now : Int} {pid : String} {s1 s2 s3 : ServerState}
    (h1 : ProtSafe now pid s1 s2) (h2 : ProtSafe now pid s2 s3) :
    ProtSafe now pid s1 s3 := by
  intro p hp hprot hw
  obtain ⟨q, hq, hle, hqw, hqprot, hqmax⟩ := h1 p hp hprot hw
  obtain ⟨r, hr, hle2, hrw, hrprot, hrmax⟩ := h2 q hq (by rw [hqprot]; exact hprot) hqw
  exact ⟨r, hr, hle.trans hle2, hrw, by rw [hrprot, hqprot], by rw [hrmax, hqmax]⟩

theorem protSafe_of_players_eq {s s' : ServerState} (h : s'.players = s.players)
    (now : Int) (pid : String) : ProtSafe now pid s s' := by
  intro p hp _ hw
  exact ⟨p, by rw [findPlayer_eq_of_players_eq s s' h]; exact hp, le_refl _, hw, rfl, rfl⟩

theorem emitEvent_protSafe (now : Int) (pid : String) (s : ServerState) (e : GameEvent) :
    ProtSafe now pid s (emitEvent s e) :=
  protSafe_of_players_eq rfl now pid

theorem emit3_protSafe (now : Int) (pid : String) (s : ServerState) (e1 e2 e3 : GameEvent) :
    ProtSafe now pid s (emitEvent (emitEvent (emitEvent s e1) e2) e3) :=
  protSafe_of_players_eq rfl now pid

theorem modifyNeutral_protSafe (now : Int) (pid : String) (s : ServerState) (nid : String)
    (f : NeutralObject → NeutralObject) : ProtSafe now pid s (modifyNeutral s nid f) :=
  protSafe_of_players_eq rfl now pid

theorem modifyDrone_protSafe (now : Int) (pid : String) (s : ServerState) (did : String)
    (f : Drone → Drone) : ProtSafe now pid s (modifyDrone s did f) :=
  protSafe_of_players_eq rfl now pid

/-- Replacing the entries with id `cid` is safe for any tracked protected
player when the current `cid` entry is not protected (the tracked player
then cannot be the `cid` entry). -/
theorem modifyConst_protSafe_skip (now : Int) (s : ServerState) (cid : String) (q : Player)
    (hq : q.id = cid)
    (hskip : ∀ p0, findPlayer s cid = some p0 → ¬ now < p0.spawnProtectionUntil)
    (pid : String) : ProtSafe now pid s (modifyPlayer s cid (fun _ => q)) := by
  intro p hp hprot hw
  by_cases hc : p.id = cid
  · exfalso
    have hcp : cid = pid := by rw [← hc, findPlayer_id s pid p hp]
    exact hskip p (by rw [hcp]; exact hp) hprot
  · refine ⟨p, ?_, le_refl _, hw, rfl, rfl⟩
    rw [findPlayer_modifyPlayer s cid pid _ (fun _ _ => hq), hp, Option.map_some', if_neg hc]

/-- Replacing the entries with id `cid` by a record that does not drop the
current entry's health, stays within its max, and keeps protection and max,
is safe for any tracked player. -/
theorem modifyConst_protSafe_mono (now : Int) (s : ServerState) (cid : String) (q : Player)
    (hq : q.id = cid)
    (hrel : ∀ p0, findPlayer s cid = some p0 → p0.ship.health ≤ p0.ship.maxHealth →
      p0.ship.health ≤ q.ship.health ∧ q.ship.health ≤ q.ship.maxHealth ∧
      q.spawnProtectionUntil = p0.spawnProtectionUntil ∧
      q.ship.maxHealth = p0.ship.maxHealth)
    (pid : String) : ProtSafe now pid s (modifyPlayer s cid (fun _ => q)) := by
  intro p hp hprot hw
  by_cases hc : p.id = cid
  · have hcp : cid = pid := by rw [← hc, findPlayer_id s pid p hp]
    obtain ⟨h1, h2, h3, h4⟩ := hrel p (by rw [hcp]; exact hp) hw
    refine ⟨q, ?_, h1, h2, h3, h4⟩
    rw [findPlayer_modifyPlayer s cid pid _ (fun _ _ => hq), hp, Option.map_some', if_pos hc]
  · refine ⟨p, ?_, le_refl _, hw, rfl, rfl⟩
    rw [findPlayer_modifyPlayer s cid pid _ (fun _ _ => hq), hp, Option.map_some', if_neg hc]

/-- `awardXP` keeps the id, the protection deadline and the max health of
the player object, and either keeps its health or heals it to max. -/
theorem awardXPPlayer_fields (p : Player) (amount : Int) :
    (awardXPPlayer p amount).1.id = p.id ∧
    (awardXPPlayer p amount).1.spawnProtectionUntil = p.spawnProtectionUntil ∧
    (awardXPPlayer p amount).1.ship.maxHealth = p.ship.maxHealth ∧
    ((awardXPPlayer p amount).1.ship.health = p.ship.health ∨
      (awardXPPlayer p amount).1.ship.health = p.ship.maxHealth) := by
  unfold awardXPPlayer
  dsimp only
  split
  · exact ⟨rfl, rfl, rfl, Or.inr rfl⟩
  · exact ⟨rfl, rfl, rfl, Or.inl rfl⟩

theorem awardXP_protSafe (now : Int) (s : ServerState) (cid : String) (amount : Int)
    (pid : String) : ProtSafe now pid s (awardXP s cid amount) := by
  unfold awardXP
  cases hf : findPlayer s cid with
  | none => exact protSafe_refl now pid s
  | some p0 =>
    dsimp only
    have hfl := awardXPPlayer_fields p0 amount
    refine protSafe_trans (modifyConst_protSafe_mono now s cid (awardXPPlayer p0 amount).1
      (hfl.1.trans (findPlayer_id s cid p0 hf)) ?_ pid)
      (protSafe_of_players_eq ?_ now pid)
    · intro q0 hq0 hw0
      rw [hf] at hq0
      obtain rfl : p0 = q0 := Option.some.inj hq0
      refine ⟨?_, ?_, hfl.2.1, hfl.2.2.1⟩
      · rcases hfl.2.2.2 with h | h
        · rw [h]
        · rw [h]; exact hw0
      · rw [hfl.2.2.1]
        rcases hfl.2.2.2 with h | h
        · rw [h]; exact hw0
        · rw [h]
    · rw [savePlayerState_players]

theorem resolveKillerAndNotify_protSafe (now : Int) (s1 : ServerState) (victim : Player)
    (killerId weaponType : String) (pid : String) :
    ProtSafe now pid s1 (resolveKillerAndNotify now s1 victim killerId weaponType) := by
  unfold resolveKillerAndNotify
  cases hk : findPlayer s1 killerId with
  | some killer =>
    dsimp only
    refine protSafe_trans (modifyConst_protSafe_mono now s1 killerId
      { killer with ship := { killer.ship with
        kills := killer.ship.kills + 1
        score := killer.ship.score + (100 + victim.ship.level * 10) } }
      (findPlayer_id s1 killerId killer hk) ?_ pid)
      (protSafe_trans (awardXP_protSafe now _ killerId _ pid)
        (emit3_protSafe now pid _ _ _ _))
    intro q0 hq0 hw0
    rw [hk] at hq0
    obtain rfl : killer = q0 := Option.some.inj hq0
    exact ⟨le_refl _, hw0, rfl, rfl⟩
  | none =>
    dsimp only
    exact emit3_protSafe now pid s1 _ _ _

theorem hpdTail_protSafe (now : Int) (s s0 : ServerState) (victim marked : Player)
    (killerId weaponType pid : String)
    (hpl : s0.players = s.players)
    (hmid : marked.id = victim.id)
    (hskip : ∀ p0, findPlayer s victim.id = some p0 → ¬ now < p0.spawnProtectionUntil) :
    ProtSafe now pid s (resolveKillerAndNotify now
      (modifyPlayer s0 victim.id (fun _ => marked)) victim killerId weaponType) := by
  refine protSafe_trans (protSafe_of_players_eq hpl now pid)
    (protSafe_trans (modifyConst_protSafe_skip now s0 victim.id marked hmid ?_ pid)
      (resolveKillerAndNotify_protSafe now _ victim killerId weaponType pid))
  intro p0 hp0
  exact hskip p0 ((findPlayer_eq_of_players_eq s s0 hpl victim.id).symm.trans hp0)

theorem handlePlayerDeath_protSafe (now : Int) (s : ServerState) (victim : Player)
    (killerId weaponType : String) (pid : String)
    (hskip : ∀ p0, findPlayer s victim.id = some p0 → ¬ now < p0.spawnProtectionUntil) :
    ProtSafe now pid s (handlePlayerDeath now s victim killerId weaponType) := by
  unfold handlePlayerDeath
  split
  · exact protSafe_refl now pid s
  · dsimp only
    exact hpdTail_protSafe now s _ victim _ killerId weaponType pid
      (by split <;> rfl) (by rfl) hskip

/-- The damage-application tail shared by the bullet-ship and drone-ship
candidate loops (mutate the target, emit the damage event, maybe handle
its death) is safe for any tracked protected player, because the target
passed the not-protected check. -/
theorem damageBranch_protSafe (now : Int) (s : ServerState) (cid : String)
    (player player' : Player) (hf : findPlayer s cid = some player)
    (hid : player'.id = player.id)
    (hprot' : player'.spawnProtectionUntil = player.spawnProtectionUntil)
    (hprotneg : ¬ now < player.spawnProtectionUntil)
    (ev : GameEvent) (ownerId wt pid : String) :
    ProtSafe now pid s
      (if player'.ship.health ≤ 0 then
        handlePlayerDeath now (emitEvent (modifyPlayer s player.id (fun _ => player')) ev)
          player' ownerId wt
       else emitEvent (modifyPlayer s player.id (fun _ => player')) ev) := by
  have hidcid : player.id = cid := findPlayer_id s cid player hf
  have hfp : findPlayer s player.id = some player := by rw [hidcid]; exact hf
  have hskip1 : ∀ p0, findPlayer s player.id = some p0 →
      ¬ now < p0.spawnProtectionUntil := by
    intro p0 hp0
    rw [hfp] at hp0
    obtain rfl : player = p0 := Option.some.inj hp0
    exact hprotneg
  refine protSafe_trans (modifyConst_protSafe_skip now s player.id player' hid hskip1 pid) ?_
  have h1 : findPlayer (modifyPlayer s player.id (fun _ => player')) player.id
      = some player' := by
    rw [findPlayer_modifyPlayer s player.id player.id _ (fun _ _ => hid), hfp,
      Option.map_some', if_pos rfl]
  split
  · refine protSafe_trans (emitEvent_protSafe now pid _ ev) ?_
    apply handlePlayerDeath_protSafe
    intro p0 hp0
    have h2 : findPlayer (emitEvent (modifyPlayer s player.id (fun _ => player')) ev)
        player'.id = some player' := by
      rw [hid]; exact h1
    obtain rfl : player' = p0 := Option.some.inj (h2.symm.trans hp0)
    rw [hprot']
    exact hprotneg
  · exact emitEvent_protSafe now pid _ ev

theorem bulletShipCandLoop_protSafe (now : Int) (bullet : Bullet) (cands : List String)
    (s : ServerState) (bulletsToRemove : List String) (pid : String) :
    ProtSafe now pid s (bulletShipCandLoop now bullet cands s bulletsToRemove).1 := by
  induction cands generalizing s bulletsToRemove with
  | nil => exact protSafe_refl now pid s
  | cons cid rest ih =>
    unfold bulletShipCandLoop
    cases hf : findPlayer s cid with
    | none => exact ih s bulletsToRemove
    | some player =>
      dsimp only
      split
      · exact ih s bulletsToRemove
      · rename_i hsk
        split
        · split
          · exact protSafe_trans (emitEvent_protSafe now pid s _)
              (ih _ _)
          · have hprotneg : ¬ now < player.spawnProtectionUntil := fun h =>
              hsk (Or.inr (Or.inr (Or.inr h)))
            exact damageBranch_protSafe now s cid player
              { player with ship :=
                { player.ship with health := player.ship.health - bullet.damage } }
              hf rfl rfl hprotneg _ bullet.ownerId bullet.type.str pid
        · exact ih s bulletsToRemove

theorem bulletShipLoop_protSafe (now : Int) (grid : SpatialHashGrid String)
    (bullets : List Bullet) (s : ServerState) (rem : List String) (pid : String) :
    ProtSafe now pid s (bulletShipLoop now grid bullets s rem).1 := by
  induction bullets generalizing s rem with
  | nil => exact protSafe_refl now pid s
  | cons b rest ih =>
    unfold bulletShipLoop
    split
    · exact ih s rem
    · exact protSafe_trans (bulletShipCandLoop_protSafe now b _ s rem pid) (ih _ _)

theorem droneShipCandLoop_protSafe (now : Int) (drone : Drone) (cands : List String)
    (s : ServerState) (pid : String) :
    ProtSafe now pid s (droneShipCandLoop now drone cands s).2 := by
  induction cands generalizing drone s with
  | nil => exact protSafe_refl now pid s
  | cons cid rest ih =>
    unfold droneShipCandLoop
    cases hf : findPlayer s cid with
    | none => exact ih drone s
    | some player =>
      dsimp only
      split
      · exact ih drone s
      · rename_i hsk
        split
        · refine protSafe_trans ?_ (ih _ _)
          split
          · have hprotneg : ¬ now < player.spawnProtectionUntil := fun h =>
              hsk (Or.inr (Or.inr (Or.inr h)))
            exact damageBranch_protSafe now s cid player
              { player with ship :=
                { player.ship with health := player.ship.health - DRONE_DAMAGE } }
              hf rfl rfl hprotneg _ drone.ownerId "drone" pid
          · exact protSafe_refl now pid s
        · exact ih drone s

theorem droneNeutralCandLoop_protSafe (now : Int) (drone : Drone) (ownerId : String)
    (cands : List String) (s : ServerState) (nrem : List String) (pid : String) :
    ProtSafe now pid s (droneNeutralCandLoop drone ownerId cands s nrem).1 := by
  induction cands generalizing s nrem with
  | nil => exact protSafe_refl now pid s
  | cons cid rest ih =>
    unfold droneNeutralCandLoop
    cases hf : findNeutral s cid with
    | none => exact ih s nrem
    | some neutral =>
      dsimp only
      split
      · exact ih s nrem
      · split
        · split
          · refine protSafe_trans (modifyNeutral_protSafe now pid s neutral.id _)
              (protSafe_trans (awardXP_protSafe now _ ownerId _ pid)
                (protSafe_trans (emitEvent_protSafe now pid _ _) (ih _ _)))
          · exact protSafe_trans (modifyNeutral_protSafe now pid s neutral.id _) (ih _ _)
        · exact ih s nrem

theorem droneStep_protSafe (now : Int) (sg ng : SpatialHashGrid String) (drone : Drone)
    (s : ServerState) (nrem : List String) (pid : String) :
    ProtSafe now pid s (droneStep now sg ng drone s nrem).1 := by
  unfold droneStep
  dsimp only
  refine protSafe_trans (droneShipCandLoop_protSafe now drone _ s pid)
    (protSafe_trans (droneNeutralCandLoop_protSafe now _ drone.ownerId _ _ _ pid)
      (modifyDrone_protSafe now pid _ drone.id _))

theorem droneLoop_protSafe (now : Int) (shipGrid neutralGrid : SpatialHashGrid String)
    (drones : List Drone) (s : ServerState) (nrem : List String) (pid : String) :
    ProtSafe now pid s (droneLoop now shipGrid neutralGrid drones s nrem).1 := by
  induction drones generalizing s nrem with
  | nil => exact protSafe_refl now pid s
  | cons drone rest ih =>
    unfold droneLoop
    cases hf : findPlayer s drone.ownerId with
    | none => exact ih s nrem
    | some p =>
      dsimp only
      exact protSafe_trans (droneStep_protSafe now shipGrid neutralGrid drone s nrem pid)
        (ih _ _)

/-- Invariant of the turret target-selection fold: any selected player
passed the liveness, stealth and spawn-protection checks. -/
theorem turretFold_inv (now : Int) (n : NeutralObject) (l : List Player)
    (acc : ℚ × Option Player)
    (hacc : ∀ q, acc.2 = some q → ¬ now < q.spawnProtectionUntil ∧
      q.isDead = false ∧ q.ship.isStealthed = false)
    (q : Player)
    (h : (l.foldl
      (fun acc p =>
        if p.isDead = true ∨ p.ship.isStealthed = true then acc
        else if now < p.spawnProtectionUntil then acc
        else
          let dist := distanceBetween n.x n.y p.ship.x p.ship.y
          if dist < acc.1 then (dist, some p) else acc) acc).2 = some q) :
    ¬ now < q.spawnProtectionUntil ∧ q.isDead = false ∧ q.ship.isStealthed = false := by
  induction l generalizing acc with
  | nil => exact hacc q h
  | cons p rest ih =>
    rw [List.foldl_cons] at h
    refine ih _ ?_ h
    intro r hr
    dsimp only at hr
    by_cases h1 : p.isDead = true ∨ p.ship.isStealthed = true
    · rw [if_pos h1] at hr
      exact hacc r hr
    · rw [if_neg h1] at hr
      by_cases h2 : now < p.spawnProtectionUntil
      · rw [if_pos h2] at hr
        exact hacc r hr
      · rw [if_neg h2] at hr
        by_cases h3 : distanceBetween n.x n.y p.ship.x p.ship.y < acc.1
        · rw [if_pos h3] at hr
          dsimp only at hr
          obtain rfl : p = r := Option.some.inj hr
          rcases not_or.mp h1 with ⟨ha, hb⟩
          refine ⟨h2, ?_, ?_⟩
          · cases hI : p.isDead
            · rfl
            · exact (ha hI).elim
          · cases hS : p.ship.isStealthed
            · rfl
            · exact (hb hS).elim
        · rw [if_neg h3] at hr
          exact hacc r hr

theorem findTurretTarget_props (now : Int) (range : ℚ) (n : NeutralObject)
    (players : List Player) (target : Player)
    (h : findTurretTarget now range n players = some target) :
    ¬ now < target.spawnProtectionUntil ∧ target.isDead = false ∧
      target.ship.isStealthed = false := by
  unfold findTurretTarget at h
  exact turretFold_inv now n players (range, none)
    (fun q hq => Option.noConfusion hq) target h

/-- **C7** (spawn protection): a player whose spawn-protection deadline is
still in the future at `now` never has their ship health reduced by the
bullet-ship collision pass or the drone collision pass (the entry survives
with its health not decreased and its deadline untouched), and the turret
target-selection loop of `updateNeutrals` never selects a protected (or
dead, or stealthed) player as its target. -/
theorem claim7_spawn_protection (now : Int) (shipGrid neutralGrid : SpatialHashGrid String)
    (s : ServerState) (brem nrem : List String) (pid : String) (p : Player)
    (range : ℚ) (n : NeutralObject) (target : Player) :
    (findPlayer s pid = some p → now < p.spawnProtectionUntil →
      p.ship.health ≤ p.ship.maxHealth →
      ∃ p', findPlayer (checkBulletShipCollisions now shipGrid s brem).1 pid = some p' ∧
        p.ship.health ≤ p'.ship.health ∧
        p'.spawnProtectionUntil = p.spawnProtectionUntil) ∧
    (findPlayer s pid = some p → now < p.spawnProtectionUntil →
      p.ship.health ≤ p.ship.maxHealth →
      ∃ p', findPlayer (checkDroneCollisions now shipGrid neutralGrid s nrem).1 pid
          = some p' ∧
        p.ship.health ≤ p'.ship.health ∧
        p'.spawnProtectionUntil = p.spawnProtectionUntil) ∧
    (findTurretTarget now range n s.players = some target →
      ¬ now < target.spawnProtectionUntil ∧ target.isDead = false ∧
        target.ship.isStealthed = false) := by
  refine ⟨?_, ?_, fun h => findTurretTarget_props now range n s.players target h⟩
  · intro hp hprot hw
    obtain ⟨p', h1, h2, h3, h4, h5⟩ :=
      bulletShipLoop_protSafe now shipGrid s.bullets s brem pid p hp hprot hw
    exact ⟨p', h1, h2, h4⟩
  · intro hp hprot hw
    obtain ⟨p', h1, h2, h3, h4, h5⟩ :=
      droneLoop_protSafe now shipGrid neutralGrid s.drones s nrem pid p hp hprot hw
    exact ⟨p', h1, h2, h4⟩

theorem claim7_witness :
    (findPlayer protState "pp" = some protPlayer ∧
      (1000 : Int) < protPlayer.spawnProtectionUntil ∧
      protPlayer.ship.health ≤ protPlayer.ship.maxHealth ∧
      findTurretTarget 1000 TANK_RANGE turretN protState.players = some protShooter) ∧
    (∃ p', findPlayer (checkBulletShipCollisions 1000 protShipGrid protState []).1 "pp"
        = some p' ∧
      protPlayer.ship.health ≤ p'.ship.health ∧
      p'.spawnProtectionUntil = protPlayer.spawnProtectionUntil) ∧
    (∃ p', findPlayer
        (checkDroneCollisions 1000 protShipGrid protNeutralGrid protState []).1 "pp"
        = some p' ∧
      protPlayer.ship.health ≤ p'.ship.health ∧
      p'.spawnProtectionUntil = protPlayer.spawnProtectionUntil) ∧
    (¬ (1000 : Int) < protShooter.spawnProtectionUntil ∧ protShooter.isDead = false ∧
      protShooter.ship.isStealthed = false) := by
  have hp : findPlayer protState "pp" = some protPlayer := by
    with_unfolding_all decide
  have ht : findTurretTarget 1000 TANK_RANGE turretN protState.players = some protShooter := by
    with_unfolding_all decide
  have h := claim7_spawn_protection 1000 protShipGrid protNeutralGrid protState [] []
    "pp" protPlayer TANK_RANGE turretN protShooter
  exact ⟨⟨hp, by with_unfolding_all decide, by with_unfolding_all decide, ht⟩,
    h.1 hp (by with_unfolding_all decide) (by with_unfolding_all decide),
    h.2.1 hp (by with_unfolding_all decide) (by with_unfolding_all decide),
    h.2.2 ht⟩

/-! ## Claim 1: the health invariant through `checkCollisions` -/

theorem mem_addSet_self (l : List String) (x : String) : x ∈ addSet l x := by
  unfold addSet
  split
  · assumption
  · exact List.mem_append.mpr (Or.inr (List.mem_singleton.mpr rfl))

theorem mem_addSet_of_mem (l : List String) (x y : String) (h : y ∈ l) :
    y ∈ addSet l x := by
  unfold addSet
  split
  · exact h
  · exact List.mem_append.mpr (Or.inl h)

theorem findNeutral_mem (s : ServerState) (nid : String) (n : NeutralObject)
    (h : findNeutral s nid = some n) : n ∈ s.neutrals ∧ n.id = nid := by
  refine ⟨List.mem_of_find?_eq_some h, ?_⟩
  have := List.find?_some h
  simpa using this

theorem findPlayer_eq_none (s : ServerState) (pid : String)
    (h : findPlayer s pid = none) : ∀ p ∈ s.players, p.id ≠ pid := by
  intro p hp
  have := List.find?_eq_none.mp h p hp
  simpa using this

theorem findPlayer_unique (s : ServerState) (pid : String) (p q : Player)
    (hnd : (s.players.map (fun r => r.id)).Nodup)
    (hfind : findPlayer s pid = some p) (hq : q ∈ s.players) (hqid : q.id = pid) :
    q = p := by
  have hp := findPlayer_mem s pid p hfind
  exact List.inj_on_of_nodup_map hnd hq hp.1 (by rw [hqid, hp.2])

theorem awardXPPlayer_isDead (p : Player) (amount : Int) :
    (awardXPPlayer p amount).1.isDead = p.isDead := by
  unfold awardXPPlayer
  dsimp only
  split <;> rfl

theorem awardXPPlayer_ok (p : Player) (amount : Int) (h : PlayerHealthOk p) :
    PlayerHealthOk (awardXPPlayer p amount).1 := by
  obtain ⟨hid, hprot, hmax, hh⟩ := awardXPPlayer_fields p amount
  obtain ⟨h1, h2, h3⟩ := h
  refine ⟨?_, by rw [hmax]; exact h2, ?_⟩
  · rcases hh with hcase | hcase
    · rw [hcase, hmax]; exact h1
    · rw [hcase, hmax]
  · intro hd
    rw [awardXPPlayer_isDead] at hd
    rcases hh with hcase | hcase
    · rw [hcase]; exact h3 hd
    · rw [hcase]; exact h2

theorem awardXPPlayer_weak (p : Player) (amount : Int) (h : WeakHealthOk p) :
    WeakHealthOk (awardXPPlayer p amount).1 := by
  obtain ⟨hid, hprot, hmax, hh⟩ := awardXPPlayer_fields p amount
  refine ⟨?_, by rw [hmax]; exact h.2⟩
  rcases hh with hcase | hcase
  · rw [hcase, hmax]; exact h.1
  · rw [hcase, hmax]

theorem awardXPPlayer_pres (amount : Int) (aid vid : String) (p : Player)
    (h : PlayerHealthOk p ∨ (p.id = aid ∧ p.id ≠ vid ∧ WeakHealthOk p)) :
    PlayerHealthOk (awardXPPlayer p amount).1 ∨
      ((awardXPPlayer p amount).1.id = aid ∧ (awardXPPlayer p amount).1.id ≠ vid ∧
        WeakHealthOk (awardXPPlayer p amount).1) := by
  rcases h with hok | ⟨ha, hne, hw⟩
  · exact Or.inl (awardXPPlayer_ok p amount hok)
  · refine Or.inr ⟨?_, ?_, awardXPPlayer_weak p amount hw⟩
    · rw [(awardXPPlayer_fields p amount).1]; exact ha
    · rw [(awardXPPlayer_fields p amount).1]; exact hne

/-- Replacing every entry with id `cid` by the single record `q` preserves
any per-entry predicate `P` that `q` satisfies, and preserves the id
list. -/
theorem modifyPlayer_const_inv (s : ServerState) (cid : String) (q : Player)
    (hq : q.id = cid) (P : Player → Prop)
    (hP : ∀ p ∈ s.players, P p) (hPq : P q) :
    (∀ p ∈ (modifyPlayer s cid (fun _ => q)).players, P p) ∧
    (modifyPlayer s cid (fun _ => q)).players.map (fun p => p.id) =
      s.players.map (fun p => p.id) := by
  constructor
  · intro p hp
    dsimp only [modifyPlayer] at hp
    rcases List.mem_map.mp hp with ⟨a, ha, rfl⟩
    by_cases h : a.id = cid
    · rw [if_pos h]; exact hPq
    · rw [if_neg h]; exact hP a ha
  · dsimp only [modifyPlayer]
    rw [List.map_map]
    refine List.map_congr_left ?_
    intro a ha
    simp only [Function.comp_apply]
    by_cases h : a.id = cid
    · rw [if_pos h, hq]; exact h.symm
    · rw [if_neg h]

theorem modifyPlayer_const_ids (s : ServerState) (cid : String) (q : Player)
    (hq : q.id = cid) :
    (modifyPlayer s cid (fun _ => q)).players.map (fun p => p.id) =
      s.players.map (fun p => p.id) :=
  (modifyPlayer_const_inv s cid q hq (fun _ => True) (fun _ _ => trivial) trivial).2

theorem modifyNeutral_const_inv (s : ServerState) (nid : String) (q : NeutralObject)
    (P : NeutralObject → Prop)
    (hP : ∀ n ∈ s.neutrals, P n) (hPq : P q) :
    ∀ n ∈ (modifyNeutral s nid (fun _ => q)).neutrals, P n := by
  intro n hn
  dsimp only [modifyNeutral] at hn
  rcases List.mem_map.mp hn with ⟨a, ha, rfl⟩
  by_cases h : a.id = nid
  · rw [if_pos h]; exact hPq
  · rw [if_neg h]; exact hP a ha

theorem modifyPlayer_bullets (s : ServerState) (pid : String) (f : Player → Player) :
    (modifyPlayer s pid f).bullets = s.bullets := rfl

theorem modifyPlayer_neutrals (s : ServerState) (pid : String) (f : Player → Player) :
    (modifyPlayer s pid f).neutrals = s.neutrals := rfl

theorem modifyNeutral_players (s : ServerState) (nid : String)
    (f : NeutralObject → NeutralObject) : (modifyNeutral s nid f).players = s.players := rfl

theorem modifyNeutral_bullets (s : ServerState) (nid : String)
    (f : NeutralObject → NeutralObject) : (modifyNeutral s nid f).bullets = s.bullets := rfl

theorem modifyDrone_players (s : ServerState) (did : String) (f : Drone → Drone) :
    (modifyDrone s did f).players = s.players := rfl

theorem modifyDrone_bullets (s : ServerState) (did : String) (f : Drone → Drone) :
    (modifyDrone s did f).bullets = s.bullets := rfl

theorem modifyDrone_neutrals (s : ServerState) (did : String) (f : Drone → Drone) :
    (modifyDrone s did f).neutrals = s.neutrals := rfl

theorem emitEvent_players (s : ServerState) (e : GameEvent) :
    (emitEvent s e).players = s.players := rfl

theorem emitEvent_bullets (s : ServerState) (e : GameEvent) :
    (emitEvent s e).bullets = s.bullets := rfl

theorem emitEvent_neutrals (s : ServerState) (e : GameEvent) :
    (emitEvent s e).neutrals = s.neutrals := rfl

theorem savePlayerState_bullets (s : ServerState) (p : Player) :
    (savePlayerState s p).bullets = s.bullets := by
  unfold savePlayerState
  split <;> rfl

theorem savePlayerState_neutrals (s : ServerState) (p : Player) :
    (savePlayerState s p).neutrals = s.neutrals := by
  unfold savePlayerState
  split <;> rfl

theorem awardXP_bullets (s : ServerState) (cid : String) (amt : Int) :
    (awardXP s cid amt).bullets = s.bullets := by
  unfold awardXP
  cases hf : findPlayer s cid with
  | none => rfl
  | some p0 =>
    dsimp only
    rw [savePlayerState_bullets]
    rfl

theorem awardXP_neutrals (s : ServerState) (cid : String) (amt : Int) :
    (awardXP s cid amt).neutrals = s.neutrals := by
  unfold awardXP
  cases hf : findPlayer s cid with
  | none => rfl
  | some p0 =>
    dsimp only
    rw [savePlayerState_neutrals]
    rfl

theorem awardXP_inv (s : ServerState) (cid : String) (amt : Int) (P : Player → Prop)
    (hP : ∀ p ∈ s.players, P p)
    (hmono : ∀ p, P p → P (awardXPPlayer p amt).1) :
    (∀ p ∈ (awardXP s cid amt).players, P p) ∧
    (awardXP s cid amt).players.map (fun p => p.id) = s.players.map (fun p => p.id) := by
  unfold awardXP
  cases hf : findPlayer s cid with
  | none => exact ⟨hP, rfl⟩
  | some p0 =>
    dsimp only
    have h := modifyPlayer_const_inv s cid (awardXPPlayer p0 amt).1
      ((awardXPPlayer_fields p0 amt).1.trans (findPlayer_id s cid p0 hf)) P hP
      (hmono p0 (hP p0 (findPlayer_mem s cid p0 hf).1))
    constructor
    · intro p hp
      rw [savePlayerState_players] at hp
      exact h.1 p hp
    · rw [savePlayerState_players]
      exact h.2

theorem resolveKillerAndNotify_inv (now : Int) (s1 : ServerState) (victim : Player)
    (kid wt : String) (P : Player → Prop)
    (hmono : ∀ p, P p → P (awardXPPlayer p (100 + victim.ship.level * 20)).1)
    (hcredit : ∀ p, P p → P { p with ship := { p.ship with
      kills := p.ship.kills + 1
      score := p.ship.score + (100 + victim.ship.level * 10) } })
    (hP : ∀ p ∈ s1.players, P p) :
    (∀ p ∈ (resolveKillerAndNotify now s1 victim kid wt).players, P p) ∧
    (resolveKillerAndNotify now s1 victim kid wt).players.map (fun p => p.id) =
      s1.players.map (fun p => p.id) ∧
    (resolveKillerAndNotify now s1 victim kid wt).bullets = s1.bullets ∧
    (resolveKillerAndNotify now s1 victim kid wt).neutrals = s1.neutrals := by
  unfold resolveKillerAndNotify
  cases hk : findPlayer s1 kid with
  | none =>
    dsimp only
    exact ⟨fun p hp => hP p hp, rfl, rfl, rfl⟩
  | some killer =>
    dsimp only
    have h2 := modifyPlayer_const_inv s1 kid
      { killer with ship := { killer.ship with
        kills := killer.ship.kills + 1
        score := killer.ship.score + (100 + victim.ship.level * 10) } }
      (findPlayer_id s1 kid killer hk) P hP
      (hcredit killer (hP killer (findPlayer_mem s1 kid killer hk).1))
    have h3 := awardXP_inv _ kid (100 + victim.ship.level * 20) P h2.1 hmono
    refine ⟨fun p hp => h3.1 p hp, ?_, ?_, ?_⟩
    · exact h3.2.trans h2.2
    · rw [emitEvent_bullets, emitEvent_bullets, emitEvent_bullets, awardXP_bullets,
        modifyPlayer_bullets]
    · rw [emitEvent_neutrals, emitEvent_neutrals, emitEvent_neutrals, awardXP_neutrals,
        modifyPlayer_neutrals]

theorem markVictim_inv (s0 s : ServerState) (victim : Player) (aid : String) (now : Int)
    (hpl0 : s0.players = s.players)
    (hvm : 0 ≤ victim.ship.maxHealth)
    (hexc : ∀ p ∈ s.players, PlayerHealthOk p ∨ (p.id = victim.id ∧ WeakHealthOk p) ∨
      (p.id = aid ∧ WeakHealthOk p)) :
    (∀ p ∈ (modifyPlayer s0 victim.id (fun _ => { victim with
        ship := { victim.ship with health := 0 },
        isDead := true, deathTime := now })).players,
      PlayerHealthOk p ∨ (p.id = aid ∧ p.id ≠ victim.id ∧ WeakHealthOk p)) ∧
    (modifyPlayer s0 victim.id (fun _ => { victim with
        ship := { victim.ship with health := 0 },
        isDead := true, deathTime := now })).players.map (fun p => p.id) =
      s.players.map (fun p => p.id) := by
  constructor
  · intro p hp
    dsimp only [modifyPlayer] at hp
    rw [hpl0] at hp
    rcases List.mem_map.mp hp with ⟨a, ha, rfl⟩
    by_cases h : a.id = victim.id
    · rw [if_pos h]
      exact Or.inl ⟨hvm, hvm, fun _ => le_refl 0⟩
    · rw [if_neg h]
      rcases hexc a ha with hok | ⟨hv, hw⟩ | ⟨ha2, hw⟩
      · exact Or.inl hok
      · exact absurd hv h
      · exact Or.inr ⟨ha2, h, hw⟩
  · rw [modifyPlayer_const_ids s0 victim.id { victim with
        ship := { victim.ship with health := 0 },
        isDead := true, deathTime := now } rfl, hpl0]

/-- Master health lemma for `handlePlayerDeath` on a not-yet-dead victim:
if every entry is healthy except possibly the victim's entries and the
entries of one excused id `aid` (which are at least weakly healthy), then
afterwards every entry is healthy except possibly the `aid` entries —
which then cannot be the victim's (those were zeroed and marked dead). -/
theorem handlePlayerDeath_exc (now : Int) (s : ServerState) (victim : Player)
    (kid wt aid : String)
    (hvd : victim.isDead = false)
    (hvm : 0 ≤ victim.ship.maxHealth)
    (hexc : ∀ p ∈ s.players, PlayerHealthOk p ∨ (p.id = victim.id ∧ WeakHealthOk p) ∨
      (p.id = aid ∧ WeakHealthOk p)) :
    (∀ p ∈ (handlePlayerDeath now s victim kid wt).players,
      PlayerHealthOk p ∨ (p.id = aid ∧ p.id ≠ victim.id ∧ WeakHealthOk p)) ∧
    (handlePlayerDeath now s victim kid wt).players.map (fun p => p.id) =
      s.players.map (fun p => p.id) ∧
    (handlePlayerDeath now s victim kid wt).bullets = s.bullets ∧
    (handlePlayerDeath now s victim kid wt).neutrals = s.neutrals := by
  unfold handlePlayerDeath
  rw [if_neg (by simp [hvd])]
  dsimp only
  have hb0 : (if victim.id = localPlayerId then
      { saveGameResult now s victim with storageSave := none } else s).bullets
      = s.bullets := by
    split <;> rfl
  have hn0 : (if victim.id = localPlayerId then
      { saveGameResult now s victim with storageSave := none } else s).neutrals
      = s.neutrals := by
    split <;> rfl
  have hm := markVictim_inv (if victim.id = localPlayerId then
      { saveGameResult now s victim with storageSave := none } else s) s victim aid now
    (by split <;> rfl) hvm hexc
  have h := resolveKillerAndNotify_inv now _ victim kid wt
    (fun p => PlayerHealthOk p ∨ (p.id = aid ∧ p.id ≠ victim.id ∧ WeakHealthOk p))
    (awardXPPlayer_pres (100 + victim.ship.level * 20) aid victim.id)
    (fun p hph => hph) hm.1
  refine ⟨h.1, h.2.1.trans hm.2, ?_, ?_⟩
  · exact h.2.2.1.trans ((modifyPlayer_bullets _ victim.id _).trans hb0)
  · exact h.2.2.2.trans ((modifyPlayer_neutrals _ victim.id _).trans hn0)

/-- The re-fetching death check restores full health-sanity for a single
excused id: any entry that is unhealthy is the (unique, by `hnd`) entry the
check re-fetches, and is either sent through `handlePlayerDeath` (zeroed)
or is in fact healthy (positive health or already dead). -/
theorem shipDeathCheck_exc_inv (now : Int) (s : ServerState) (did oid aid : String)
    (hnd : (s.players.map (fun p => p.id)).Nodup)
    (hA : ∀ p ∈ s.players, PlayerHealthOk p ∨ (p.id = did ∧ WeakHealthOk p) ∨
      (p.id = aid ∧ WeakHealthOk p)) :
    (∀ p ∈ (shipDeathCheck now s did oid).players,
      PlayerHealthOk p ∨ (p.id = aid ∧ p.id ≠ did ∧ WeakHealthOk p)) ∧
    (shipDeathCheck now s did oid).players.map (fun p => p.id) =
      s.players.map (fun p => p.id) ∧
    (shipDeathCheck now s did oid).bullets = s.bullets ∧
    (shipDeathCheck now s did oid).neutrals = s.neutrals := by
  unfold shipDeathCheck
  cases hf : findPlayer s did with
  | none =>
    refine ⟨?_, rfl, rfl, rfl⟩
    intro p hp
    rcases hA p hp with hok | ⟨hdid, hw⟩ | ⟨haid, hw⟩
    · exact Or.inl hok
    · exact absurd hdid (findPlayer_eq_none s did hf p hp)
    · exact Or.inr ⟨haid, findPlayer_eq_none s did hf p hp, hw⟩
  | some pc =>
    dsimp only
    have hmm := findPlayer_mem s did pc hf
    have hw : WeakHealthOk pc := by
      rcases hA pc hmm.1 with hok | ⟨-, hw⟩ | ⟨-, hw⟩
      · exact ⟨hok.1, hok.2.1⟩
      · exact hw
      · exact hw
    split
    · rename_i hc
      obtain ⟨h1, h2, h3, h4⟩ := handlePlayerDeath_exc now s pc oid "collision" aid
        hc.2 hw.2 (fun p hp => by rw [hmm.2]; exact hA p hp)
      rw [hmm.2] at h1
      exact ⟨h1, h2, h3, h4⟩
    · rename_i hc
      have hpcOk : PlayerHealthOk pc := by
        refine ⟨hw.1, hw.2, ?_⟩
        intro hdead
        by_contra hneg
        exact hc ⟨le_of_lt (not_le.mp hneg), hdead⟩
      refine ⟨?_, rfl, rfl, rfl⟩
      intro p hp
      rcases hA p hp with hok | ⟨hdid, hw2⟩ | ⟨haid, hw2⟩
      · exact Or.inl hok
      · left
        rw [findPlayer_unique s did pc p hnd hf hp hdid]
        exact hpcOk
      · by_cases hdid : p.id = did
        · left
          rw [findPlayer_unique s did pc p hnd hf hp hdid]
          exact hpcOk
        · exact Or.inr ⟨haid, hdid, hw2⟩

/-- The whole hit resolution of one ship-ship pair (mutate both ships,
then run both death checks) preserves the health invariant. -/
theorem modify2_checks_inv (now : Int) (s : ServerState) (p1id cid : String)
    (q1 q2 : Player)
    (hq1 : q1.id = p1id) (hq2 : q2.id = cid)
    (hw1 : WeakHealthOk q1) (hw2 : WeakHealthOk q2)
    (hok : ∀ p ∈ s.players, PlayerHealthOk p)
    (hnd : (s.players.map (fun p => p.id)).Nodup) :
    (∀ p ∈ (shipDeathCheck now (shipDeathCheck now
        (modifyPlayer (modifyPlayer s p1id (fun _ => q1)) cid (fun _ => q2)) p1id cid)
        cid p1id).players, PlayerHealthOk p) ∧
    (shipDeathCheck now (shipDeathCheck now
        (modifyPlayer (modifyPlayer s p1id (fun _ => q1)) cid (fun _ => q2)) p1id cid)
        cid p1id).players.map (fun p => p.id) = s.players.map (fun p => p.id) ∧
    (shipDeathCheck now (shipDeathCheck now
        (modifyPlayer (modifyPlayer s p1id (fun _ => q1)) cid (fun _ => q2)) p1id cid)
        cid p1id).bullets = s.bullets ∧
    (shipDeathCheck now (shipDeathCheck now
        (modifyPlayer (modifyPlayer s p1id (fun _ => q1)) cid (fun _ => q2)) p1id cid)
        cid p1id).neutrals = s.neutrals := by
  obtain ⟨hma1, hma2⟩ := modifyPlayer_const_inv s p1id q1 hq1
    (fun p => PlayerHealthOk p ∨ (p.id = p1id ∧ WeakHealthOk p))
    (fun p hp => Or.inl (hok p hp)) (Or.inr ⟨hq1, hw1⟩)
  obtain ⟨hmb1, hmb2⟩ := modifyPlayer_const_inv (modifyPlayer s p1id (fun _ => q1)) cid q2
    hq2
    (fun p => PlayerHealthOk p ∨ (p.id = p1id ∧ WeakHealthOk p) ∨
      (p.id = cid ∧ WeakHealthOk p))
    (fun p hp => (hma1 p hp).imp id Or.inl) (Or.inr (Or.inr ⟨hq2, hw2⟩))
  have hnd1 : ((modifyPlayer (modifyPlayer s p1id (fun _ => q1)) cid
      (fun _ => q2)).players.map (fun p => p.id)).Nodup := by
    rw [hmb2, hma2]; exact hnd
  obtain ⟨hc1, hc2, hc3, hc4⟩ := shipDeathCheck_exc_inv now
    (modifyPlayer (modifyPlayer s p1id (fun _ => q1)) cid (fun _ => q2)) p1id cid cid
    hnd1 hmb1
  have hnd2 : ((shipDeathCheck now (modifyPlayer (modifyPlayer s p1id (fun _ => q1)) cid
      (fun _ => q2)) p1id cid).players.map (fun p => p.id)).Nodup := by
    rw [hc2]; exact hnd1
  obtain ⟨hd1, hd2, hd3, hd4⟩ := shipDeathCheck_exc_inv now
    (shipDeathCheck now (modifyPlayer (modifyPlayer s p1id (fun _ => q1)) cid
      (fun _ => q2)) p1id cid) cid p1id cid hnd2
    (fun p hp => (hc1 p hp).imp id (fun h => Or.inl ⟨h.1, h.2.2⟩))
  refine ⟨?_, ?_, ?_, ?_⟩
  · intro p hp
    rcases hd1 p hp with hok2 | ⟨h1, h2, -⟩
    · exact hok2
    · exact absurd h1 h2
  · exact hd2.trans (hc2.trans (hmb2.trans hma2))
  · exact hd3.trans (hc3.trans rfl)
  · exact hd4.trans (hc4.trans rfl)

/-- The shared damage-application tail of the bullet-ship and drone-ship
candidate loops preserves the health invariant: the target either dies
(and is zeroed) or survives with positive health. -/
theorem damageBranch_inv (now : Int) (s : ServerState) (cid : String)
    (player player' : Player)
    (hf : findPlayer s cid = some player)
    (hid : player'.id = player.id)
    (hvd : player'.isDead = false)
    (hw : WeakHealthOk player')
    (ev : GameEvent) (ownerId wt : String)
    (hok : ∀ p ∈ s.players, PlayerHealthOk p) :
    (∀ p ∈ (if player'.ship.health ≤ 0 then
        handlePlayerDeath now (emitEvent (modifyPlayer s player.id (fun _ => player')) ev)
          player' ownerId wt
      else emitEvent (modifyPlayer s player.id (fun _ => player')) ev).players,
      PlayerHealthOk p) ∧
    (if player'.ship.health ≤ 0 then
        handlePlayerDeath now (emitEvent (modifyPlayer s player.id (fun _ => player')) ev)
          player' ownerId wt
      else emitEvent (modifyPlayer s player.id (fun _ => player')) ev).players.map
      (fun p => p.id) = s.players.map (fun p => p.id) ∧
    (if player'.ship.health ≤ 0 then
        handlePlayerDeath now (emitEvent (modifyPlayer s player.id (fun _ => player')) ev)
          player' ownerId wt
      else emitEvent (modifyPlayer s player.id (fun _ => player')) ev).bullets
      = s.bullets ∧
    (if player'.ship.health ≤ 0 then
        handlePlayerDeath now (emitEvent (modifyPlayer s player.id (fun _ => player')) ev)
          player' ownerId wt
      else emitEvent (modifyPlayer s player.id (fun _ => player')) ev).neutrals
      = s.neutrals := by
  split
  · rename_i hdead
    obtain ⟨hm1, hm2⟩ := modifyPlayer_const_inv s player.id player' hid
      (fun p => PlayerHealthOk p ∨ (p.id = player'.id ∧ WeakHealthOk p))
      (fun p hp => Or.inl (hok p hp)) (Or.inr ⟨rfl, hw⟩)
    obtain ⟨h1, h2, h3, h4⟩ := handlePlayerDeath_exc now
      (emitEvent (modifyPlayer s player.id (fun _ => player')) ev) player' ownerId wt
      player'.id hvd hw.2
      (fun p hp => ((hm1 p hp).imp id Or.inl))
    refine ⟨?_, ?_, ?_, ?_⟩
    · intro p hp
      rcases h1 p hp with hok2 | ⟨ha, hb, -⟩
      · exact hok2
      · exact absurd ha hb
    · exact h2.trans hm2
    · exact h3
    · exact h4
  · rename_i halive
    obtain ⟨hm1, hm2⟩ := modifyPlayer_const_inv s player.id player' hid PlayerHealthOk hok
      ⟨hw.1, hw.2, fun _ => le_of_lt (not_le.mp halive)⟩
    exact ⟨fun p hp => hm1 p hp, hm2, rfl, rfl⟩

theorem bulletShipCandLoop_inv (now : Int) (bullet : Bullet) (cands : List String)
    (s : ServerState) (rem : List String) :
    0 ≤ bullet.damage →
    (∀ p ∈ s.players, PlayerHealthOk p) →
    (∀ p ∈ (bulletShipCandLoop now bullet cands s rem).1.players, PlayerHealthOk p) ∧
    (bulletShipCandLoop now bullet cands s rem).1.players.map (fun p => p.id) =
      s.players.map (fun p => p.id) ∧
    (bulletShipCandLoop now bullet cands s rem).1.bullets = s.bullets ∧
    (bulletShipCandLoop now bullet cands s rem).1.neutrals = s.neutrals := by
  induction cands generalizing s rem with
  | nil =>
    intro _ hok
    exact ⟨hok, rfl, rfl, rfl⟩
  | cons cid rest ih =>
    intro hdmg hok
    unfold bulletShipCandLoop
    cases hf : findPlayer s cid with
    | none => exact ih s rem hdmg hok
    | some player =>
      dsimp only
      split
      · exact ih s rem hdmg hok
      · rename_i hsk
        split
        · split
          · exact ih _ _ hdmg (fun p hp => hok p hp)
          · have hpm := findPlayer_mem s cid player hf
            have hokp := hok player hpm.1
            exact damageBranch_inv now s cid player
              { player with ship :=
                { player.ship with health := player.ship.health - bullet.damage } }
              hf rfl
              (by
                show player.isDead = false
                cases hI : player.isDead
                · rfl
                · exact absurd hI (fun h => hsk (Or.inr (Or.inl h))))
              ⟨by
                show player.ship.health - bullet.damage ≤ player.ship.maxHealth
                have h1 := hokp.1
                omega, hokp.2.1⟩
              _ bullet.ownerId bullet.type.str hok
        · exact ih s rem hdmg hok

theorem bulletShipLoop_inv (now : Int) (grid : SpatialHashGrid String)
    (bullets : List Bullet) (s : ServerState) (rem : List String) :
    (∀ b ∈ bullets, 0 ≤ b.damage) →
    (∀ p ∈ s.players, PlayerHealthOk p) →
    (∀ p ∈ (bulletShipLoop now grid bullets s rem).1.players, PlayerHealthOk p) ∧
    (bulletShipLoop now grid bullets s rem).1.players.map (fun p => p.id) =
      s.players.map (fun p => p.id) ∧
    (bulletShipLoop now grid bullets s rem).1.bullets = s.bullets ∧
    (bulletShipLoop now grid bullets s rem).1.neutrals = s.neutrals := by
  induction bullets generalizing s rem with
  | nil =>
    intro _ hok
    exact ⟨hok, rfl, rfl, rfl⟩
  | cons b rest ih =>
    intro hB hok
    unfold bulletShipLoop
    split
    · exact ih s rem (fun x hx => hB x (List.mem_cons_of_mem _ hx)) hok
    · obtain ⟨h1, h2, h3, h4⟩ := bulletShipCandLoop_inv now b _ s rem
        (hB b (List.mem_cons_self _ _)) hok
      obtain ⟨g1, g2, g3, g4⟩ := ih _ _ (fun x hx => hB x (List.mem_cons_of_mem _ hx)) h1
      exact ⟨g1, g2.trans h2, g3.trans h3, g4.trans h4⟩

/-- The XP-award-and-toast tail shared by the two neutral-kill branches. -/
theorem neutralAwardStep_inv (s1 : ServerState) (ownerId : String) (xp : Int)
    (ev : GameEvent)
    (hok1 : ∀ p ∈ s1.players, PlayerHealthOk p) :
    (∀ p ∈ (emitEvent (awardXP s1 ownerId xp) ev).players, PlayerHealthOk p) ∧
    (emitEvent (awardXP s1 ownerId xp) ev).players.map (fun p => p.id) =
      s1.players.map (fun p => p.id) ∧
    (emitEvent (awardXP s1 ownerId xp) ev).bullets = s1.bullets ∧
    (emitEvent (awardXP s1 ownerId xp) ev).neutrals = s1.neutrals := by
  obtain ⟨h1, h2⟩ := awardXP_inv s1 ownerId xp PlayerHealthOk hok1
    (fun p h => awardXPPlayer_ok p xp h)
  exact ⟨fun p hp => h1 p hp, h2, (emitEvent_bullets _ _).trans (awardXP_bullets _ _ _),
    (emitEvent_neutrals _ _).trans (awardXP_neutrals _ _ _)⟩

theorem bulletNeutralCandLoop_inv (bullet : Bullet) (cands : List String)
    (s : ServerState) (brem nrem : List String) :
    0 ≤ bullet.damage →
    (∀ p ∈ s.players, PlayerHealthOk p) →
    (∀ n ∈ s.neutrals, n.health ≤ n.maxHealth ∧ (n.id ∈ nrem ∨ 0 < n.health)) →
    (∀ p ∈ (bulletNeutralCandLoop bullet cands s brem nrem).1.players, PlayerHealthOk p) ∧
    (∀ n ∈ (bulletNeutralCandLoop bullet cands s brem nrem).1.neutrals,
      n.health ≤ n.maxHealth ∧
        (n.id ∈ (bulletNeutralCandLoop bullet cands s brem nrem).2.2 ∨ 0 < n.health)) ∧
    (bulletNeutralCandLoop bullet cands s brem nrem).1.players.map (fun p => p.id) =
      s.players.map (fun p => p.id) ∧
    (bulletNeutralCandLoop bullet cands s brem nrem).1.bullets = s.bullets := by
  induction cands generalizing s brem nrem with
  | nil =>
    intro _ hok hnv
    exact ⟨hok, hnv, rfl, rfl⟩
  | cons cid rest ih =>
    intro hdmg hok hnv
    unfold bulletNeutralCandLoop
    cases hf : findNeutral s cid with
    | none => exact ih s brem nrem hdmg hok hnv
    | some neutral =>
      dsimp only
      split
      · exact ih s brem nrem hdmg hok hnv
      · split
        · rename_i hdist
          have hnm := findNeutral_mem s cid neutral hf
          have hni := hnv neutral hnm.1
          split
          · rename_i hzero
            have hinv1 : ∀ n ∈ (modifyNeutral s neutral.id (fun _ =>
                { neutral with health := neutral.health - bullet.damage })).neutrals,
                n.health ≤ n.maxHealth ∧ (n.id ∈ addSet nrem neutral.id ∨ 0 < n.health) :=
              modifyNeutral_const_inv s neutral.id _ _
                (fun n hn => ⟨(hnv n hn).1,
                  (hnv n hn).2.imp (mem_addSet_of_mem _ _ _) id⟩)
                ⟨by
                  show neutral.health - bullet.damage ≤ neutral.maxHealth
                  have h1 := hni.1
                  omega,
                 Or.inl (mem_addSet_self _ _)⟩
            cases hfo : findPlayer (modifyNeutral s neutral.id (fun _ =>
                { neutral with health := neutral.health - bullet.damage }))
                bullet.ownerId with
            | some po =>
              dsimp only
              obtain ⟨hA1, hA2, hA3, hA4⟩ := neutralAwardStep_inv
                (modifyNeutral s neutral.id (fun _ =>
                  { neutral with health := neutral.health - bullet.damage }))
                bullet.ownerId neutral.xpValue
                (.xpGained neutral.x neutral.y neutral.xpValue)
                (fun p hp => hok p hp)
              refine ⟨hA1, ?_, hA2, hA3⟩
              intro n hn
              rw [hA4] at hn
              exact hinv1 n hn
            | none =>
              exact ⟨fun p hp => hok p hp, hinv1, rfl, rfl⟩
          · rename_i hpos
            refine ⟨fun p hp => hok p hp, ?_, rfl, rfl⟩
            exact modifyNeutral_const_inv s neutral.id _ _
              (fun n hn => hnv n hn)
              ⟨by
                show neutral.health - bullet.damage ≤ neutral.maxHealth
                have h1 := hni.1
                omega,
               Or.inr (not_le.mp hpos)⟩
        · exact ih s brem nrem hdmg hok hnv

theorem bulletNeutralLoop_inv (grid : SpatialHashGrid String) (bullets : List Bullet)
    (s : ServerState) (brem nrem : List String) :
    (∀ b ∈ bullets, 0 ≤ b.damage) →
    (∀ p ∈ s.players, PlayerHealthOk p) →
    (∀ n ∈ s.neutrals, n.health ≤ n.maxHealth ∧ (n.id ∈ nrem ∨ 0 < n.health)) →
    (∀ p ∈ (bulletNeutralLoop grid bullets s brem nrem).1.players, PlayerHealthOk p) ∧
    (∀ n ∈ (bulletNeutralLoop grid bullets s brem nrem).1.neutrals,
      n.health ≤ n.maxHealth ∧
        (n.id ∈ (bulletNeutralLoop grid bullets s brem nrem).2.2 ∨ 0 < n.health)) ∧
    (bulletNeutralLoop grid bullets s brem nrem).1.players.map (fun p => p.id) =
      s.players.map (fun p => p.id) ∧
    (bulletNeutralLoop grid bullets s brem nrem).1.bullets = s.bullets := by
  induction bullets generalizing s brem nrem with
  | nil =>
    intro _ hok hnv
    exact ⟨hok, hnv, rfl, rfl⟩
  | cons b rest ih =>
    intro hB hok hnv
    unfold bulletNeutralLoop
    split
    · exact ih s brem nrem (fun x hx => hB x (List.mem_cons_of_mem _ hx)) hok hnv
    · obtain ⟨h1, h2, h3, h4⟩ := bulletNeutralCandLoop_inv b _ s brem nrem
        (hB b (List.mem_cons_self _ _)) hok hnv
      obtain ⟨g1, g2, g3, g4⟩ := ih _ _ _
        (fun x hx => hB x (List.mem_cons_of_mem _ hx)) h1 h2
      exact ⟨g1, g2, g3.trans h3, g4.trans h4⟩

theorem shipShipHit_inv (now : Int) (s : ServerState) (p1id cid : String)
    (p1 p2 : Player)
    (hf1 : findPlayer s p1id = some p1) (hf2 : findPlayer s cid = some p2)
    (hok : ∀ p ∈ s.players, PlayerHealthOk p)
    (hnd : (s.players.map (fun p => p.id)).Nodup) :
    (∀ p ∈ (shipShipHit now s p1id cid p1 p2).players, PlayerHealthOk p) ∧
    (shipShipHit now s p1id cid p1 p2).players.map (fun p => p.id) =
      s.players.map (fun p => p.id) ∧
    (shipShipHit now s p1id cid p1 p2).bullets = s.bullets ∧
    (shipShipHit now s p1id cid p1 p2).neutrals = s.neutrals := by
  have hm1 := findPlayer_mem s p1id p1 hf1
  have hm2 := findPlayer_mem s cid p2 hf2
  have hok1 := hok p1 hm1.1
  have hok2 := hok p2 hm2.1
  unfold shipShipHit
  dsimp only
  exact modify2_checks_inv now s p1id cid _ _ hm1.2 hm2.2
    ⟨by
      show p1.ship.health - 1 ≤ p1.ship.maxHealth
      have h1 := hok1.1
      omega, hok1.2.1⟩
    ⟨by
      show p2.ship.health - 1 ≤ p2.ship.maxHealth
      have h1 := hok2.1
      omega, hok2.2.1⟩
    hok hnd

theorem shipShipCandLoop_inv (now : Int) (livingIds : List String) (i : Nat)
    (p1id : String) (cands : List String) (s : ServerState) :
    (∀ p ∈ s.players, PlayerHealthOk p) →
    (s.players.map (fun p => p.id)).Nodup →
    (∀ p ∈ (shipShipCandLoop now livingIds i p1id cands s).players, PlayerHealthOk p) ∧
    (shipShipCandLoop now livingIds i p1id cands s).players.map (fun p => p.id) =
      s.players.map (fun p => p.id) ∧
    (shipShipCandLoop now livingIds i p1id cands s).bullets = s.bullets ∧
    (shipShipCandLoop now livingIds i p1id cands s).neutrals = s.neutrals := by
  induction cands generalizing s with
  | nil =>
    intro hok _
    exact ⟨hok, rfl, rfl, rfl⟩
  | cons cid rest ih =>
    intro hok hnd
    unfold shipShipCandLoop
    cases hj : playerIndexOf livingIds cid with
    | none => exact ih s hok hnd
    | some j =>
      dsimp only
      by_cases hji : j ≤ i
      · rw [if_pos hji]
        exact ih s hok hnd
      · rw [if_neg hji]
        cases hf1 : findPlayer s p1id with
        | none => exact ih s hok hnd
        | some p1 =>
          cases hf2 : findPlayer s cid with
          | none => exact ih s hok hnd
          | some p2 =>
            dsimp only
            split
            · obtain ⟨h1, h2, h3, h4⟩ := shipShipHit_inv now s p1id cid p1 p2 hf1 hf2
                hok hnd
              obtain ⟨g1, g2, g3, g4⟩ := ih _ h1 (by rw [h2]; exact hnd)
              exact ⟨g1, g2.trans h2, g3.trans h3, g4.trans h4⟩
            · exact ih s hok hnd

theorem shipShipOuter_inv (now : Int) (grid : SpatialHashGrid String)
    (livingIds : List String) (pending : List (Nat × String)) (s : ServerState) :
    (∀ p ∈ s.players, PlayerHealthOk p) →
    (s.players.map (fun p => p.id)).Nodup →
    (∀ p ∈ (shipShipOuter now grid livingIds pending s).players, PlayerHealthOk p) ∧
    (shipShipOuter now grid livingIds pending s).players.map (fun p => p.id) =
      s.players.map (fun p => p.id) ∧
    (shipShipOuter now grid livingIds pending s).bullets = s.bullets ∧
    (shipShipOuter now grid livingIds pending s).neutrals = s.neutrals := by
  induction pending generalizing s with
  | nil =>
    intro hok _
    exact ⟨hok, rfl, rfl, rfl⟩
  | cons pr rest ih =>
    obtain ⟨i, pid⟩ := pr
    intro hok hnd
    unfold shipShipOuter
    cases hfp : findPlayer s pid with
    | none => exact ih s hok hnd
    | some p1 =>
      dsimp only
      obtain ⟨h1, h2, h3, h4⟩ := shipShipCandLoop_inv now livingIds i pid _ s hok hnd
      obtain ⟨g1, g2, g3, g4⟩ := ih _ h1 (by rw [h2]; exact hnd)
      exact ⟨g1, g2.trans h2, g3.trans h3, g4.trans h4⟩

theorem droneShipCandLoop_inv (now : Int) (drone : Drone) (cands : List String)
    (s : ServerState) :
    (∀ p ∈ s.players, PlayerHealthOk p) →
    (∀ p ∈ (droneShipCandLoop now drone cands s).2.players, PlayerHealthOk p) ∧
    (droneShipCandLoop now drone cands s).2.players.map (fun p => p.id) =
      s.players.map (fun p => p.id) ∧
    (droneShipCandLoop now drone cands s).2.bullets = s.bullets ∧
    (droneShipCandLoop now drone cands s).2.neutrals = s.neutrals := by
  induction cands generalizing drone s with
  | nil =>
    intro hok
    exact ⟨hok, rfl, rfl, rfl⟩
  | cons cid rest ih =>
    intro hok
    unfold droneShipCandLoop
    cases hf : findPlayer s cid with
    | none => exact ih drone s hok
    | some player =>
      dsimp only
      split
      · exact ih drone s hok
      · rename_i hsk
        split
        · split
          · rename_i hshield
            have hpm := findPlayer_mem s cid player hf
            have hokp := hok player hpm.1
            obtain ⟨h1, h2, h3, h4⟩ := damageBranch_inv now s cid player
              { player with ship :=
                { player.ship with health := player.ship.health - DRONE_DAMAGE } }
              hf rfl
              (by
                show player.isDead = false
                cases hI : player.isDead
                · rfl
                · exact absurd hI (fun h => hsk (Or.inr (Or.inl h))))
              ⟨by
                show player.ship.health - DRONE_DAMAGE ≤ player.ship.maxHealth
                have h1 := hokp.1
                have h5 : DRONE_DAMAGE = 5 := rfl
                omega, hokp.2.1⟩
              (.damageDealt player.ship.x player.ship.y DRONE_DAMAGE false)
              drone.ownerId "drone" hok
            obtain ⟨g1, g2, g3, g4⟩ := ih _ _ h1
            exact ⟨g1, g2.trans h2, g3.trans h3, g4.trans h4⟩
          · exact ih _ s hok
        · exact ih drone s hok

theorem droneNeutralCandLoop_inv (drone : Drone) (ownerId : String)
    (cands : List String) (s : ServerState) (nrem : List String) :
    (∀ p ∈ s.players, PlayerHealthOk p) →
    (∀ n ∈ s.neutrals, n.health ≤ n.maxHealth ∧ (n.id ∈ nrem ∨ 0 < n.health)) →
    (∀ p ∈ (droneNeutralCandLoop drone ownerId cands s nrem).1.players,
      PlayerHealthOk p) ∧
    (∀ n ∈ (droneNeutralCandLoop drone ownerId cands s nrem).1.neutrals,
      n.health ≤ n.maxHealth ∧
        (n.id ∈ (droneNeutralCandLoop drone ownerId cands s nrem).2 ∨ 0 < n.health)) ∧
    (droneNeutralCandLoop drone ownerId cands s nrem).1.players.map (fun p => p.id) =
      s.players.map (fun p => p.id) ∧
    (droneNeutralCandLoop drone ownerId cands s nrem).1.bullets = s.bullets := by
  induction cands generalizing s nrem with
  | nil =>
    intro hok hnv
    exact ⟨hok, hnv, rfl, rfl⟩
  | cons cid rest ih =>
    intro hok hnv
    unfold droneNeutralCandLoop
    cases hf : findNeutral s cid with
    | none => exact ih s nrem hok hnv
    | some neutral =>
      dsimp only
      split
      · exact ih s nrem hok hnv
      · split
        · rename_i hdist
          have hnm := findNeutral_mem s cid neutral hf
          have hni := hnv neutral hnm.1
          split
          · rename_i hzero
            have hinv1 : ∀ n ∈ (modifyNeutral s neutral.id (fun _ =>
                { neutral with health := neutral.health - DRONE_DAMAGE })).neutrals,
                n.health ≤ n.maxHealth ∧ (n.id ∈ addSet nrem neutral.id ∨ 0 < n.health) :=
              modifyNeutral_const_inv s neutral.id _ _
                (fun n hn => ⟨(hnv n hn).1,
                  (hnv n hn).2.imp (mem_addSet_of_mem _ _ _) id⟩)
                ⟨by
                  show neutral.health - DRONE_DAMAGE ≤ neutral.maxHealth
                  have h1 := hni.1
                  have h5 : DRONE_DAMAGE = 5 := rfl
                  omega,
                 Or.inl (mem_addSet_self _ _)⟩
            obtain ⟨hA1, hA2, hA3, hA4⟩ := neutralAwardStep_inv
              (modifyNeutral s neutral.id (fun _ =>
                { neutral with health := neutral.health - DRONE_DAMAGE }))
              ownerId neutral.xpValue
              (.xpGained neutral.x neutral.y neutral.xpValue)
              (fun p hp => hok p hp)
            obtain ⟨g1, g2, g3, g4⟩ := ih _ _ hA1 (by
              intro n hn
              rw [hA4] at hn
              exact hinv1 n hn)
            exact ⟨g1, g2, g3.trans hA2, g4.trans hA3⟩
          · rename_i hpos
            have hinv1 : ∀ n ∈ (modifyNeutral s neutral.id (fun _ =>
                { neutral with health := neutral.health - DRONE_DAMAGE })).neutrals,
                n.health ≤ n.maxHealth ∧ (n.id ∈ nrem ∨ 0 < n.health) :=
              modifyNeutral_const_inv s neutral.id _ _
                (fun n hn => hnv n hn)
                ⟨by
                  show neutral.health - DRONE_DAMAGE ≤ neutral.maxHealth
                  have h1 := hni.1
                  have h5 : DRONE_DAMAGE = 5 := rfl
                  omega,
                 Or.inr (not_le.mp hpos)⟩
            obtain ⟨g1, g2, g3, g4⟩ := ih _ _ (by intro p hp; exact hok p hp) hinv1
            exact ⟨g1, g2, g3, g4⟩
        · exact ih s nrem hok hnv

theorem droneStep_inv (now : Int) (sg ng : SpatialHashGrid String) (drone : Drone)
    (s : ServerState) (nrem : List String) :
    (∀ p ∈ s.players, PlayerHealthOk p) →
    (∀ n ∈ s.neutrals, n.health ≤ n.maxHealth ∧ (n.id ∈ nrem ∨ 0 < n.health)) →
    (∀ p ∈ (droneStep now sg ng drone s nrem).1.players, PlayerHealthOk p) ∧
    (∀ n ∈ (droneStep now sg ng drone s nrem).1.neutrals,
      n.health ≤ n.maxHealth ∧
        (n.id ∈ (droneStep now sg ng drone s nrem).2 ∨ 0 < n.health)) ∧
    (droneStep now sg ng drone s nrem).1.players.map (fun p => p.id) =
      s.players.map (fun p => p.id) ∧
    (droneStep now sg ng drone s nrem).1.bullets = s.bullets := by
  intro hok hnv
  obtain ⟨hs1, hs2, hs3, hs4⟩ := droneShipCandLoop_inv now drone
    (sg.queryInto drone.x drone.y (DRONE_RADIUS + SHIP_RADIUS) []) s hok
  obtain ⟨hn1, hn2, hn3, hn4⟩ := droneNeutralCandLoop_inv
    (droneShipCandLoop now drone
      (sg.queryInto drone.x drone.y (DRONE_RADIUS + SHIP_RADIUS) []) s).1
    drone.ownerId
    (ng.queryInto
      (droneShipCandLoop now drone
        (sg.queryInto drone.x drone.y (DRONE_RADIUS + SHIP_RADIUS) []) s).1.x
      (droneShipCandLoop now drone
        (sg.queryInto drone.x drone.y (DRONE_RADIUS + SHIP_RADIUS) []) s).1.y
      (DRONE_RADIUS + 30) [])
    (droneShipCandLoop now drone
      (sg.queryInto drone.x drone.y (DRONE_RADIUS + SHIP_RADIUS) []) s).2
    nrem hs1 (by
      intro n hn
      rw [hs4] at hn
      exact hnv n hn)
  exact ⟨fun p hp => hn1 p hp, fun n hn => hn2 n hn, hn3.trans hs2, hn4.trans hs3⟩

theorem droneLoop_inv (now : Int) (shipGrid neutralGrid : SpatialHashGrid String)
    (drones : List Drone) (s : ServerState) (nrem : List String) :
    (∀ p ∈ s.players, PlayerHealthOk p) →
    (∀ n ∈ s.neutrals, n.health ≤ n.maxHealth ∧ (n.id ∈ nrem ∨ 0 < n.health)) →
    (∀ p ∈ (droneLoop now shipGrid neutralGrid drones s nrem).1.players,
      PlayerHealthOk p) ∧
    (∀ n ∈ (droneLoop now shipGrid neutralGrid drones s nrem).1.neutrals,
      n.health ≤ n.maxHealth ∧
        (n.id ∈ (droneLoop now shipGrid neutralGrid drones s nrem).2 ∨ 0 < n.health)) ∧
    (droneLoop now shipGrid neutralGrid drones s nrem).1.players.map (fun p => p.id) =
      s.players.map (fun p => p.id) ∧
    (droneLoop now shipGrid neutralGrid drones s nrem).1.bullets = s.bullets := by
  induction drones generalizing s nrem with
  | nil =>
    intro hok hnv
    exact ⟨hok, hnv, rfl, rfl⟩
  | cons drone rest ih =>
    intro hok hnv
    unfold droneLoop
    cases hfo : findPlayer s drone.ownerId with
    | none => exact ih s nrem hok hnv
    | some po =>
      dsimp only
      obtain ⟨h1, h2, h3, h4⟩ := droneStep_inv now shipGrid neutralGrid drone s nrem
        hok hnv
      obtain ⟨g1, g2, g3, g4⟩ := ih _ _ h1 h2
      exact ⟨g1, g2, g3.trans h3, g4.trans h4⟩

theorem checkBulletShipCollisions_inv (now : Int) (grid : SpatialHashGrid String)
    (s : ServerState) (rem : List String) :
    (∀ b ∈ s.bullets, 0 ≤ b.damage) →
    (∀ p ∈ s.players, PlayerHealthOk p) →
    (∀ p ∈ (checkBulletShipCollisions now grid s rem).1.players, PlayerHealthOk p) ∧
    (checkBulletShipCollisions now grid s rem).1.players.map (fun p => p.id) =
      s.players.map (fun p => p.id) ∧
    (checkBulletShipCollisions now grid s rem).1.bullets = s.bullets ∧
    (checkBulletShipCollisions now grid s rem).1.neutrals = s.neutrals :=
  fun hB hok => bulletShipLoop_inv now grid s.bullets s rem hB hok

theorem checkBulletNeutralCollisions_inv (grid : SpatialHashGrid String)
    (s : ServerState) (brem nrem : List String) :
    (∀ b ∈ s.bullets, 0 ≤ b.damage) →
    (∀ p ∈ s.players, PlayerHealthOk p) →
    (∀ n ∈ s.neutrals, n.health ≤ n.maxHealth ∧ (n.id ∈ nrem ∨ 0 < n.health)) →
    (∀ p ∈ (checkBulletNeutralCollisions grid s brem nrem).1.players, PlayerHealthOk p) ∧
    (∀ n ∈ (checkBulletNeutralCollisions grid s brem nrem).1.neutrals,
      n.health ≤ n.maxHealth ∧
        (n.id ∈ (checkBulletNeutralCollisions grid s brem nrem).2.2 ∨ 0 < n.health)) ∧
    (checkBulletNeutralCollisions grid s brem nrem).1.players.map (fun p => p.id) =
      s.players.map (fun p => p.id) ∧
    (checkBulletNeutralCollisions grid s brem nrem).1.bullets = s.bullets :=
  fun hB hok hnv => bulletNeutralLoop_inv grid s.bullets s brem nrem hB hok hnv

theorem checkShipShipCollisions_inv (now : Int) (grid : SpatialHashGrid String)
    (livingIds : List String) (s : ServerState) :
    (∀ p ∈ s.players, PlayerHealthOk p) →
    (s.players.map (fun p => p.id)).Nodup →
    (∀ p ∈ (checkShipShipCollisions now grid livingIds s).players, PlayerHealthOk p) ∧
    (checkShipShipCollisions now grid livingIds s).players.map (fun p => p.id) =
      s.players.map (fun p => p.id) ∧
    (checkShipShipCollisions now grid livingIds s).bullets = s.bullets ∧
    (checkShipShipCollisions now grid livingIds s).neutrals = s.neutrals :=
  fun hok hnd => shipShipOuter_inv now grid livingIds livingIds.enum s hok hnd

theorem checkDroneCollisions_inv (now : Int) (sg ng : SpatialHashGrid String)
    (s : ServerState) (nrem : List String) :
    (∀ p ∈ s.players, PlayerHealthOk p) →
    (∀ n ∈ s.neutrals, n.health ≤ n.maxHealth ∧ (n.id ∈ nrem ∨ 0 < n.health)) →
    (∀ p ∈ (checkDroneCollisions now sg ng s nrem).1.players, PlayerHealthOk p) ∧
    (∀ n ∈ (checkDroneCollisions now sg ng s nrem).1.neutrals,
      n.health ≤ n.maxHealth ∧
        (n.id ∈ (checkDroneCollisions now sg ng s nrem).2 ∨ 0 < n.health)) ∧
    (checkDroneCollisions now sg ng s nrem).1.players.map (fun p => p.id) =
      s.players.map (fun p => p.id) ∧
    (checkDroneCollisions now sg ng s nrem).1.bullets = s.bullets :=
  fun hok hnv => droneLoop_inv now sg ng s.drones s nrem hok hnv

/-- The health invariant through a whole `checkCollisions` pass: if every
player entry is healthy, every bullet's damage is non-negative, and every
neutral's health lies in `(0, max]`, then afterwards every player entry is
healthy and every surviving neutral's health again lies in `(0, max]`. -/
theorem checkCollisionsWith_inv (now : Int) (sg ng : SpatialHashGrid String)
    (livingIds : List String) (s : ServerState)
    (hok : ∀ p ∈ s.players, PlayerHealthOk p)
    (hB : ∀ b ∈ s.bullets, 0 ≤ b.damage)
    (hN : ∀ n ∈ s.neutrals, 0 < n.health ∧ n.health ≤ n.maxHealth)
    (hnd : (s.players.map (fun p => p.id)).Nodup) :
    (∀ p ∈ (checkCollisionsWith now sg ng livingIds s).players, PlayerHealthOk p) ∧
    (∀ n ∈ (checkCollisionsWith now sg ng livingIds s).neutrals,
      0 < n.health ∧ n.health ≤ n.maxHealth) := by
  unfold checkCollisionsWith
  dsimp only
  obtain ⟨hA1, hA2, hA3, hA4⟩ := checkBulletShipCollisions_inv now sg s [] hB hok
  obtain ⟨hB1, hB2, hB3, hB4⟩ := checkBulletNeutralCollisions_inv ng
    (checkBulletShipCollisions now sg s []).1
    (checkBulletShipCollisions now sg s []).2 []
    (by intro b hb; rw [hA3] at hb; exact hB b hb)
    hA1
    (by intro n hn; rw [hA4] at hn; exact ⟨(hN n hn).2, Or.inr (hN n hn).1⟩)
  obtain ⟨hC1, hC2, hC3, hC4⟩ := checkShipShipCollisions_inv now sg livingIds
    (checkBulletNeutralCollisions ng
      (checkBulletShipCollisions now sg s []).1
      (checkBulletShipCollisions now sg s []).2 []).1
    hB1 (by rw [hB3, hA2]; exact hnd)
  obtain ⟨hD1, hD2, hD3, hD4⟩ := checkDroneCollisions_inv now sg ng
    (checkShipShipCollisions now sg livingIds
      (checkBulletNeutralCollisions ng
        (checkBulletShipCollisions now sg s []).1
        (checkBulletShipCollisions now sg s []).2 []).1)
    (checkBulletNeutralCollisions ng
      (checkBulletShipCollisions now sg s []).1
      (checkBulletShipCollisions now sg s []).2 []).2.2
    hC1 (by intro n hn; rw [hC4] at hn; exact hB2 n hn)
  refine ⟨fun p hp => hD1 p hp, ?_⟩
  intro n hn
  obtain ⟨hn1, hn2⟩ := List.mem_filter.mp hn
  have h2 := hD2 n hn1
  have hnotin := of_decide_eq_true hn2
  rcases h2.2 with hm | hpos
  · exact absurd hm hnotin
  · exact ⟨hpos, h2.1⟩

/-- The health invariant through a whole `checkCollisions` pass: if every
player entry is healthy, every bullet's damage is non-negative, and every
neutral's health lies in `(0, max]`, then afterwards every player entry is
healthy and every surviving neutral's health again lies in `(0, max]`. -/
theorem checkCollisions_inv (now : Int) (s : ServerState)
    (hok : ∀ p ∈ s.players, PlayerHealthOk p)
    (hB : ∀ b ∈ s.bullets, 0 ≤ b.damage)
    (hN : ∀ n ∈ s.neutrals, 0 < n.health ∧ n.health ≤ n.maxHealth)
    (hnd : (s.players.map (fun p => p.id)).Nodup) :
    (∀ p ∈ (checkCollisions now s).players, PlayerHealthOk p) ∧
    (∀ n ∈ (checkCollisions now s).neutrals, 0 < n.health ∧ n.health ≤ n.maxHealth) := by
  unfold checkCollisions
  dsimp only
  exact checkCollisionsWith_inv now _ _ _ s hok hB hN hnd

/-- C1 counterexample: in `overlapKillState` the bullet kills `p1` (which
zeroes its health and marks it dead), but the ship-ship pass in the same
tick still processes the overlapping pair and subtracts one more health
point from the already-dead `p1` without a further death check, so the
snapshot emitted at the end of the tick contains `p1`'s ship with health
`-1 < 0`. -/
theorem claim1_counterexample :
    ((mkGameState 1000 (checkCollisions 1000 overlapKillState)).ships.map
      (fun sh => (sh.id, sh.health)) = [("p1", -1), ("p2", 99)]) ∧
    ((mkGameState 1000 (checkCollisions 1000 overlapKillState)).ships.any
      (fun sh => decide (sh.health < 0)) = true) := by
  with_unfolding_all decide

/-- **C1** (amended): the snapshot health invariant holds with the dead
ships excepted. If before the collision pass every player entry satisfies
the health invariant, every bullet's damage is non-negative, every
neutral's health is in `(0, max]` and player ids are unique, then in the
snapshot built after `checkCollisions`: every ship's health is at most its
max, every LIVING player's ship health is non-negative, and every neutral
still present has health in `(0, max]`. Dead players' ships can be pushed
strictly below zero by same-tick ship-ship collisions (see the
counterexample), so the unqualified claim over all of `ships[]` is
false. -/
theorem claim1_amended (now : Int) (s : ServerState)
    (hok : ∀ p ∈ s.players, PlayerHealthOk p)
    (hB : ∀ b ∈ s.bullets, 0 ≤ b.damage)
    (hN : ∀ n ∈ s.neutrals, 0 < n.health ∧ n.health ≤ n.maxHealth)
    (hnd : (s.players.map (fun p => p.id)).Nodup) :
    (∀ sh ∈ (mkGameState now (checkCollisions now s)).ships, sh.health ≤ sh.maxHealth) ∧
    (∀ p ∈ (checkCollisions now s).players, p.isDead = false → 0 ≤ p.ship.health) ∧
    (∀ n ∈ (mkGameState now (checkCollisions now s)).neutrals,
      0 < n.health ∧ n.health ≤ n.maxHealth) := by
  obtain ⟨h1, h2⟩ := checkCollisions_inv now s hok hB hN hnd
  refine ⟨?_, fun p hp => (h1 p hp).2.2, fun n hn => h2 n hn⟩
  intro sh hsh
  rcases List.mem_map.mp hsh with ⟨p, hp, rfl⟩
  exact (h1 p hp).1

theorem claim1_witness :
    ((∀ p ∈ shieldPairState.players, PlayerHealthOk p) ∧
     (∀ b ∈ shieldPairState.bullets, 0 ≤ b.damage) ∧
     (∀ n ∈ shieldPairState.neutrals, 0 < n.health ∧ n.health ≤ n.maxHealth) ∧
     (shieldPairState.players.map (fun p => p.id)).Nodup) ∧
    ((∀ sh ∈ (mkGameState 1000 (checkCollisions 1000 shieldPairState)).ships,
       sh.health ≤ sh.maxHealth) ∧
     (∀ p ∈ (checkCollisions 1000 shieldPairState).players,
       p.isDead = false → 0 ≤ p.ship.health) ∧
     (∀ n ∈ (mkGameState 1000 (checkCollisions 1000 shieldPairState)).neutrals,
       0 < n.health ∧ n.health ≤ n.maxHealth)) := by
  have h1 : ∀ p ∈ shieldPairState.players, PlayerHealthOk p := by
    simp only [PlayerHealthOk]
    with_unfolding_all decide
  have h2 : ∀ b ∈ shieldPairState.bullets, 0 ≤ b.damage := by
    with_unfolding_all decide
  have h3 : ∀ n ∈ shieldPairState.neutrals, 0 < n.health ∧ n.health ≤ n.maxHealth := by
    with_unfolding_all decide
  have h4 : (shieldPairState.players.map (fun p => p.id)).Nodup := by
    with_unfolding_all decide
  exact ⟨⟨h1, h2, h3, h4⟩, claim1_amended 1000 shieldPairState h1 h2 h3 h4⟩

end NavalWar
